import Mathlib

/-!
Verification of the SoHoLINK offline AAA core against its specification.

This file gives a shallow embedding, in Lean 4, of the components of the
SoHoLINK repository that the specification's claims are about:

* the DID codec (`internal/did/didkey.go`),
* the credential codec and verifier (`internal/verifier/verifier.go`),
* the identity store's logical contract (`internal/store/users.go`,
  `internal/store/revocations.go`, the SQLite schema in `internal/store`),
* the RADIUS authentication handler (`internal/radius/handler.go`),
* the Merkle tree (`internal/merkle/tree.go`).

Bytes are modelled as `List Nat` with values < 256 where it matters.
Go strings that are processed character-by-character (DID strings, tokens)
are modelled as `List Char`; other strings stay `String`.

External cryptographic primitives (SHA3-256 from `golang.org/x/crypto/sha3`
and Ed25519 from `crypto/ed25519`) are not code of this repository; they are
modelled as explicit function parameters (`sha3S`, `edSign`, `edVerify`,
`pubOf`) with the properties the code relies on stated as hypotheses where
a theorem needs them.  Sources of nondeterminism in the Go code (the clock
`time.Now()`, the random nonce from `crypto/rand`) become explicit
parameters (`now`, `nonce`, `ts`), and the SQLite store becomes an explicit
state value threaded through the operations.
-/

namespace SoHoLINK

/-- A byte string: a list of naturals, each < 256 where relevant. -/
abbrev Bytes := List Nat

/-! ## Small helpers shared by the codecs -/

/-- Index of a character in a list, or `none`; used to model alphabet
lookup in the base58/base64 decoders. -/
def charIndex (c : Char) : List Char → Option Nat
  | [] => none
  | x :: xs => if x = c then some 0 else (charIndex c xs).map (· + 1)

/-- Lowercase hexadecimal digit for a value < 16 (models `encoding/hex`). -/
def hexDigit (n : Nat) : Char :=
  "0123456789abcdef".toList.getD n '0'

/-- Lowercase hex encoding of a byte string, two characters per byte
(models `hex.EncodeToString`). -/
def hexEncode : Bytes → List Char
  | [] => []
  | b :: rest => hexDigit (b / 16) :: hexDigit (b % 16) :: hexEncode rest

/-- Big-endian 4-byte encoding of a natural number, truncated to 32 bits
(models `binary.BigEndian.PutUint32` after Go's `uint32(·)` conversion). -/
def putUint32BE (n : Nat) : Bytes :=
  [n / 16777216 % 256, n / 65536 % 256, n / 256 % 256, n % 256]

/-- Big-endian 32-bit read of the first four bytes
(models `binary.BigEndian.Uint32`). -/
def beUint32 : Bytes → Nat
  | b0 :: b1 :: b2 :: b3 :: _ => b0 * 16777216 + b1 * 65536 + b2 * 256 + b3
  | _ => 0

/-! ## base64url (no padding)

Models Go's `base64.RawURLEncoding` (`encoding/base64`): 3 bytes become
4 alphabet characters; a trailing group of 2 bytes becomes 3 characters and
a trailing single byte becomes 2 characters; decoding is the inverse and
fails on any character outside the alphabet or on a leftover group of one
character.  Go's default (non-strict) decoder ignores the unused low bits
of a trailing group, which the model mirrors. -/

/-- The URL-safe base64 alphabet. -/
def b64chars : List Char :=
  "ABCDEFGHIJKLMNOPQRSTUVWXYZabcdefghijklmnopqrstuvwxyz0123456789-_".toList

/-- Character for a 6-bit value. -/
def b64char (n : Nat) : Char := b64chars.getD n 'A'

/-- Value of a base64url character, `none` if it is not in the alphabet. -/
def b64val (c : Char) : Option Nat := charIndex c b64chars

/-- base64url encoding without padding. -/
def b64encode : Bytes → List Char
  | b1 :: b2 :: b3 :: rest =>
    let n := b1 * 65536 + b2 * 256 + b3
    b64char (n / 262144) :: b64char (n / 4096 % 64) :: b64char (n / 64 % 64) ::
      b64char (n % 64) :: b64encode rest
  | [b1, b2] =>
    let n := b1 * 65536 + b2 * 256
    [b64char (n / 262144), b64char (n / 4096 % 64), b64char (n / 64 % 64)]
  | [b1] =>
    let n := b1 * 65536
    [b64char (n / 262144), b64char (n / 4096 % 64)]
  | [] => []

/-- base64url decoding without padding. -/
def b64decode : List Char → Option Bytes
  | c1 :: c2 :: c3 :: c4 :: rest => do
    let v1 ← b64val c1
    let v2 ← b64val c2
    let v3 ← b64val c3
    let v4 ← b64val c4
    let n := v1 * 262144 + v2 * 4096 + v3 * 64 + v4
    let tl ← b64decode rest
    pure (n / 65536 :: n / 256 % 256 :: n % 256 :: tl)
  | [c1, c2, c3] => do
    let v1 ← b64val c1
    let v2 ← b64val c2
    let v3 ← b64val c3
    let n := v1 * 4096 + v2 * 64 + v3
    pure [n / 1024, n / 4 % 256]
  | [c1, c2] => do
    let v1 ← b64val c1
    let v2 ← b64val c2
    pure [v1 * 4 + v2 / 16]
  | [_] => none
  | [] => some []

/-! ## base58btc

Models `github.com/mr-tron/base58` as used by the DID codec: the byte
string is read as a big-endian natural number which is written in base 58
over the Bitcoin alphabet, with each leading zero byte becoming a leading
`'1'` character; decoding is the inverse and fails on any character outside
the alphabet. -/

/-- The Bitcoin base58 alphabet. -/
def b58chars : List Char :=
  "123456789ABCDEFGHJKLMNPQRSTUVWXYZabcdefghijkmnopqrstuvwxyz".toList

/-- Character for a base58 digit. -/
def b58char (n : Nat) : Char := b58chars.getD n '1'

/-- Value of a base58 character, `none` if it is not in the alphabet. -/
def b58val (c : Char) : Option Nat := charIndex c b58chars

/-- The byte string as a big-endian natural number. -/
def bytesToNat (bs : Bytes) : Nat := bs.foldl (fun a b => a * 256 + b) 0

/-- Minimal big-endian byte representation of a natural number
(empty for 0). -/
def natToBytes (n : Nat) : Bytes := (Nat.digits 256 n).reverse

/-- Base58 digit characters of a natural number, most significant first
(empty for 0). -/
def natToB58 (n : Nat) : List Char := ((Nat.digits 58 n).reverse).map b58char

/-- Number of leading zero bytes. -/
def countZeroBytes : Bytes → Nat
  | b :: rest => if b = 0 then countZeroBytes rest + 1 else 0
  | [] => 0

/-- Number of leading `'1'` characters. -/
def countLeadOnes : List Char → Nat
  | c :: rest => if c = '1' then countLeadOnes rest + 1 else 0
  | [] => 0

/-- base58btc encoding (models `base58.Encode`). -/
def b58encode (bs : Bytes) : List Char :=
  List.replicate (countZeroBytes bs) '1' ++ natToB58 (bytesToNat bs)

/-- base58btc decoding (models `base58.Decode`): every character must be in
the alphabet; leading `'1'`s become leading zero bytes and the rest is the
big-endian value of the digits. -/
def b58decode (cs : List Char) : Option Bytes := do
  let vs ← cs.mapM b58val
  pure (List.replicate (countLeadOnes cs) 0 ++
    natToBytes (vs.foldl (fun a v => a * 58 + v) 0))

end SoHoLINK

namespace SoHoLINK.did

/-! ## DID codec (`internal/did/didkey.go`)

DID strings are modelled as `List Char`; the multicodec prefix for Ed25519
is the two bytes `0xED 0x01 = 237, 1`. -/

/-- The multicodec prefix for an Ed25519 public key. -/
def ed25519MulticodecPrefix : Bytes := [237, 1]

/-- Models `EncodeDIDKey`: prepend the multicodec prefix, base58btc-encode,
and prefix the literal `did:key:z`. -/
def EncodeDIDKey (pub : Bytes) : List Char :=
  "did:key:z".toList ++ b58encode (ed25519MulticodecPrefix ++ pub)

/-- Models `DecodeDIDKey`: require the `did:key:z` prefix, base58-decode
the remainder, check the multicodec prefix, and require a 32-byte key. -/
def DecodeDIDKey (did : List Char) : Except String Bytes :=
  if "did:key:z".toList.isPrefixOf did then
    match b58decode (did.drop 9) with
    | none => .error "failed to decode base58"
    | some decoded =>
      if decoded.length < ed25519MulticodecPrefix.length then
        .error "decoded key too short"
      else if decoded.take 2 ≠ ed25519MulticodecPrefix then
        .error "invalid multicodec prefix: expected Ed25519 (0xed01)"
      else if (decoded.drop 2).length ≠ 32 then
        .error "invalid public key length"
      else
        .ok (decoded.drop 2)
  else
    .error "invalid DID:key format: must start with \x27did:key:z\x27"

end SoHoLINK.did

namespace SoHoLINK.store

/-! ## Identity store (`internal/store`)

The SQLite store is modelled relationally: `StoreState` is the logical
content of the `users`, `revocations` and `nonce_cache` tables, and the
operations are the relational semantics of the SQL in `users.go` and
`revocations.go`.  Timestamps held by the store are modelled as `Int`.
Database failures are modelled through the `StoreOps` record below: the
`memOps` instance is the failure-free store, while a theorem that is about
store errors quantifies over an arbitrary `StoreOps`. -/

/-- A row of the `users` table. -/
structure User where
  id : Nat
  username : String
  did : List Char
  publicKey : Bytes
  role : String
  createdAt : Int
  revokedAt : Option Int
deriving DecidableEq, Repr

/-- A row of the `revocations` table. -/
structure Revocation where
  did : List Char
  reason : String
  revokedAt : Int
deriving DecidableEq, Repr

/-- The logical content of the store. -/
structure StoreState where
  users : List User
  revocations : List Revocation
  nonces : List (List Char)
deriving DecidableEq, Repr

/-- The store operations used by the verifier, over an abstract state type,
each able to fail with a database error (models `*store.Store` receiving
methods that return `(…, error)`). -/
structure StoreOps (σ : Type) where
  getUserByUsername : σ → String → Except String (Option User)
  checkNonce : σ → List Char → Except String Bool
  isRevoked : σ → List Char → Except String Bool
  recordNonce : σ → List Char → Except String σ

/-- The failure-free store: the relational semantics of the SQL queries in
`users.go` / `revocations.go` on a `StoreState`.
`getUserByUsername` is `SELECT … FROM users WHERE username = ?` (the
`username` column is UNIQUE, so the first match is the only one);
`checkNonce` is `SELECT COUNT(*) FROM nonce_cache WHERE nonce = ? > 0`;
`isRevoked` is `SELECT COUNT(*) FROM revocations WHERE did = ? > 0`;
`recordNonce` is `INSERT OR IGNORE INTO nonce_cache`. -/
def memOps : StoreOps StoreState where
  getUserByUsername st u := .ok (st.users.find? (fun x => x.username == u))
  checkNonce st n := .ok (st.nonces.contains n)
  isRevoked st d := .ok (st.revocations.any (fun r => r.did == d))
  recordNonce st n :=
    .ok (if st.nonces.contains n then st else { st with nonces := st.nonces ++ [n] })

/-- Models `Store.RevokeUser` (`users.go`): inside one transaction, look up
the user's DID by username (failing with `user not found` on a miss), set
the user's `revoked_at` to the current time, and insert a revocation row.
There is no already-revoked check in the store; the transaction either
fully commits (the returned state) or leaves the store unchanged (the
error case returns no state). -/
def RevokeUser (st : StoreState) (username reason : String) (now : Int) :
    Except String StoreState :=
  match st.users.find? (fun x => x.username == username) with
  | none => .error ("user not found: " ++ username)
  | some user =>
    .ok { st with
          users := st.users.map (fun x =>
            if x.username == username then { x with revokedAt := some now } else x),
          revocations := st.revocations ++ [⟨user.did, reason, now⟩] }

end SoHoLINK.store

namespace SoHoLINK.verifier

open SoHoLINK.store

/-! ## Credential codec and verifier (`internal/verifier/verifier.go`) -/

/-- Field sizes of the 84-byte credential. -/
def timestampSize : Nat := 4

/-- Nonce field size. -/
def nonceSize : Nat := 8

/-- Username-digest field size. -/
def usernameHashSize : Nat := 8

/-- Ed25519 signature size. -/
def signatureSize : Nat := 64

/-- Total credential size: 84 bytes. -/
def credentialSize : Nat := timestampSize + nonceSize + usernameHashSize + signatureSize

/-- A parsed credential (models `verifier.Credential`).  `timestamp` is the
wire `uint32`, in seconds since the Unix epoch (Go stores
`time.Unix(int64(ts), 0)`). -/
structure Credential where
  timestamp : Nat
  nonce : Bytes
  usernameHash : Bytes
  signature : Bytes
  nonceHex : List Char
  rawMsg : Bytes
deriving DecidableEq, Repr

/-- Outcome of verification (models `verifier.VerifyResult`). -/
structure VerifyResult where
  allowed : Bool
  reason : String
  username : String
  did : List Char
  role : String
deriving DecidableEq, Repr

/-- Models the package-level `deny` helper: the `Reason` field is the
machine reason token, a `": "` separator, and the human-readable detail. -/
def deny (reason detail : String) : VerifyResult :=
  { allowed := false, reason := reason ++ ": " ++ detail,
    username := "", did := [], role := "" }

/-- Models `subtle.ConstantTimeCompare`: 1 when the two byte strings have
equal length and contents, 0 otherwise (list equality covers both). -/
def constantTimeCompare (x y : Bytes) : Nat :=
  if x = y then 1 else 0

/-- Models `ParseCredential`: base64url-decode, require exactly 84 bytes,
and slice out the fields; the signed message is the first 20 bytes. -/
def ParseCredential (token : List Char) : Except String Credential :=
  match b64decode token with
  | none => .error "invalid credential encoding"
  | some raw =>
    if raw.length ≠ credentialSize then
      .error ("invalid credential length: expected 84 bytes, got " ++ toString raw.length)
    else
      let nonce := (raw.drop timestampSize).take nonceSize
      .ok
      { timestamp := beUint32 raw
        nonce := nonce
        usernameHash := (raw.drop (timestampSize + nonceSize)).take usernameHashSize
        signature := raw.drop (timestampSize + nonceSize + usernameHashSize)
        nonceHex := hexEncode nonce
        rawMsg := raw.take (timestampSize + nonceSize + usernameHashSize) }

/-- The 20-byte pre-image and its signature, as built by
`CreateCredential`: timestamp, nonce and username digest, and the Ed25519
signature over them. -/
def signedMsg (sha3S : String → Bytes) (edSign : Bytes → Bytes → Bytes)
    (username : String) (privateKey : Bytes) (ts : Nat) (nonce : Bytes) :
    Bytes × Bytes :=
  let message := putUint32BE ts ++ nonce ++ (sha3S username).take usernameHashSize
  (message, edSign privateKey message)

/-- Models `CreateCredentialAtTime` (and `CreateCredential`, whose `ts` is
`uint32(time.Now().Unix())` and whose `nonce` is 8 bytes from
`crypto/rand`; both are explicit parameters here).  `sha3S` models
`sha3.Sum256` applied to the UTF-8 bytes of the username, and `edSign`
models `ed25519.Sign`. -/
def CreateCredential (sha3S : String → Bytes) (edSign : Bytes → Bytes → Bytes)
    (username : String) (privateKey : Bytes) (ts : Nat) (nonce : Bytes) :
    Except String (List Char) :=
  if username = "" then .error "username cannot be empty"
  else if privateKey.length ≠ 64 then .error "invalid private key size"
  else
    .ok (b64encode ((signedMsg sha3S edSign username privateKey ts nonce).1 ++
      (signedMsg sha3S edSign username privateKey ts nonce).2))

/-- Verifier configuration (models the `Verifier` struct fields that the
`Verify` method reads).  Durations are in nanoseconds, as Go's
`time.Duration`. -/
structure VerifierCfg where
  credentialTTL : Int
  clockSkewTolerance : Int
deriving DecidableEq, Repr

/-- Nanoseconds per second. -/
def nsPerSecond : Int := 1000000000

/-- Step 4 of `Verify`: resolve the public key from the DID when the
stored identifier starts with `did:key:`, falling back to the stored
public-key bytes when decoding fails. -/
def resolvePublicKey (user : User) : Bytes :=
  if "did:key:".toList.isPrefixOf user.did then
    match did.DecodeDIDKey user.did with
    | .ok k => k
    | .error _ => user.publicKey
  else user.publicKey

/-- Detail text of a `credential_future` denial.  (Go renders the seconds
with `fmt.Sprintf "%.0f"`; this model renders them with integer division,
which only affects the human-readable detail, never the reason token.) -/
def credentialFutureDetail (age tol : Int) : String :=
  "credential timestamp is " ++ toString (-age / nsPerSecond) ++
    " seconds in the future (max allowed: " ++ toString (tol / nsPerSecond) ++ ")"

/-- Detail text of a `credential_expired` denial (same rendering caveat as
`credentialFutureDetail`). -/
def credentialExpiredDetail (age ttl tol : Int) : String :=
  "credential expired " ++ toString ((age - ttl) / nsPerSecond) ++
    " seconds ago (TTL: " ++ toString (ttl / nsPerSecond) ++
    " seconds, skew tolerance: " ++ toString (tol / nsPerSecond) ++ " seconds)"

/-- Models `Verifier.Verify`, step by step in the source order:
parse, user lookup, constant-time username-digest check, public-key
resolution, signature check, temporal check with skew tolerance, nonce
replay check, revocation check, best-effort nonce recording.  Returns the
`VerifyResult`, the error returned to the caller (`none` for `nil`), and
the store state after the call.  `now` is `time.Now()` in nanoseconds. -/
def Verify {σ : Type} (sha3S : String → Bytes) (edVerify : Bytes → Bytes → Bytes → Bool)
    (v : VerifierCfg) (ops : StoreOps σ) (st : σ) (now : Int)
    (username : String) (credentialToken : List Char) :
    VerifyResult × Option String × σ :=
  match ParseCredential credentialToken with
  | .error e => (deny "invalid_credential" e, none, st)
  | .ok cred =>
    match ops.getUserByUsername st username with
    | .error e => (deny "internal_error" "database lookup failed", some e, st)
    | .ok none =>
      (deny "user_not_found" ("user \x27" ++ username ++ "\x27 not found"), none, st)
    | .ok (some user) =>
      if constantTimeCompare cred.usernameHash ((sha3S username).take usernameHashSize) ≠ 1 then
        (deny "username_mismatch" "credential was not issued for this username", none, st)
      else
        let pubKey := resolvePublicKey user
        if edVerify pubKey cred.rawMsg cred.signature = false then
          (deny "invalid_signature" "Ed25519 signature verification failed", none, st)
        else
          let age : Int := now - (cred.timestamp : Int) * nsPerSecond
          if age < -v.clockSkewTolerance then
            (deny "credential_future" (credentialFutureDetail age v.clockSkewTolerance), none, st)
          else if age > v.credentialTTL + v.clockSkewTolerance then
            (deny "credential_expired"
              (credentialExpiredDetail age v.credentialTTL v.clockSkewTolerance), none, st)
          else
            match ops.checkNonce st cred.nonceHex with
            | .error e => (deny "internal_error" "nonce check failed", some e, st)
            | .ok true => (deny "nonce_replay" "credential token has already been used", none, st)
            | .ok false =>
              match ops.isRevoked st user.did with
              | .error e => (deny "internal_error" "revocation check failed", some e, st)
              | .ok true =>
                (deny "user_revoked" ("user \x27" ++ username ++ "\x27 has been revoked"), none, st)
              | .ok false =>
                let st' :=
                  match ops.recordNonce st cred.nonceHex with
                  | .ok s2 => s2
                  | .error _ => st
                ({ allowed := true, reason := "authenticated", username := user.username,
                   did := user.did, role := user.role }, none, st')

end SoHoLINK.verifier

namespace SoHoLINK.radius

open SoHoLINK.store SoHoLINK.verifier

/-! ## RADIUS authentication handler (`internal/radius/handler.go`)

The model keeps what the claims are about: the response packet kind with
its Reply-Message attribute, and the accounting event's type, decision and
reason.  The policy-engine evaluation (an external boundary around OPA) is
passed in as its outcome. -/

/-- Response to an Access-Request, with the Reply-Message attribute. -/
inductive RadiusResponse
  | accessAccept (replyMessage : String)
  | accessReject (replyMessage : String)
deriving DecidableEq, Repr

/-- Models `policy.AuthzResult`. -/
structure AuthzResult where
  allow : Bool
  denyReasons : List String
deriving DecidableEq, Repr

/-- The event fields recorded by `Handler.recordEvent` that the claims
mention. -/
structure AuthEvent where
  eventType : String
  decision : String
  reason : String
deriving DecidableEq, Repr

/-- Models `Handler.HandleAuth`: reject on missing username or password,
run the verifier (rejecting with Reply-Message `"internal error"` when it
returns an error, and with Reply-Message `result.Reason` when it denies),
then evaluate policy and accept with a welcome message.  `password` is the
credential token from the User-Password attribute; `policyRes` is the
outcome of `h.policyEng.Evaluate` on the input built from the verifier's
success output. -/
def HandleAuth {σ : Type} (sha3S : String → Bytes) (edVerify : Bytes → Bytes → Bytes → Bool)
    (v : VerifierCfg) (ops : StoreOps σ) (st : σ) (now : Int)
    (username password : String) (policyRes : Except String AuthzResult) :
    RadiusResponse × AuthEvent × σ :=
  if username = "" then
    (.accessReject "missing username", ⟨"auth_failure", "DENY", "missing_username"⟩, st)
  else if password = "" then
    (.accessReject "missing credential token", ⟨"auth_failure", "DENY", "missing_credential"⟩, st)
  else
    match Verify sha3S edVerify v ops st now username password.toList with
    | (_, some _, st') =>
      (.accessReject "internal error", ⟨"auth_error", "DENY", "internal_error"⟩, st')
    | (result, none, st') =>
      if result.allowed = false then
        (.accessReject result.reason, ⟨"auth_failure", "DENY", result.reason⟩, st')
      else
        match policyRes with
        | .error _ =>
          (.accessReject "policy evaluation error", ⟨"auth_error", "DENY", "policy_error"⟩, st')
        | .ok pr =>
          if pr.allow = false then
            let reason := if pr.denyReasons.isEmpty then "policy_denied"
                          else pr.denyReasons.headD "policy_denied"
            (.accessReject reason, ⟨"auth_failure", "DENY", reason⟩, st')
          else
            (.accessAccept ("Welcome, " ++ username),
              ⟨"auth_success", "ALLOW", "authenticated"⟩, st')

end SoHoLINK.radius

namespace SoHoLINK.merkle

/-! ## Merkle tree (`internal/merkle/tree.go`)

`h` models SHA3-256 (`sha3.New256` from `golang.org/x/crypto/sha3`, an
external library), as a function on byte strings.  Leaves are hashed as
`h (0x00 ‖ data)` and internal nodes as `h (0x01 ‖ left ‖ right)`; at each
level the last unpaired node is promoted unchanged. -/

/-- Models `hashLeaf`: `SHA3-256(0x00 ‖ data)`. -/
def hashLeaf (h : Bytes → Bytes) (data : Bytes) : Bytes := h (0 :: data)

/-- Models `hashNode`: `SHA3-256(0x01 ‖ left ‖ right)`. -/
def hashNode (h : Bytes → Bytes) (left right : Bytes) : Bytes := h (1 :: (left ++ right))

/-- One bottom-up level step, with its length packaged for termination:
pairs are hashed and a trailing unpaired node is promoted. -/
def levelUpP (h : Bytes → Bytes) :
    (level : List Bytes) → { r : List Bytes // r.length = (level.length + 1) / 2 }
  | [] => ⟨[], rfl⟩
  | [a] => ⟨[a], by simp⟩
  | a :: b :: rest =>
    ⟨hashNode h a b :: (levelUpP h rest).1, by
      have := (levelUpP h rest).2
      simp only [List.length_cons, this]
      omega⟩

/-- One bottom-up level step (the loop body shared by `NewTree` and
`Tree.Proof`). -/
def levelUp (h : Bytes → Bytes) (level : List Bytes) : List Bytes := (levelUpP h level).1

/-- The `for len(currentLevel) > 1` loop of `NewTree`, returning
`currentLevel[0]` when one node remains. -/
def buildRootAux (h : Bytes → Bytes) (level : List Bytes) : Bytes :=
  if _hl : level.length ≤ 1 then level.headD []
  else buildRootAux h (levelUp h level)
termination_by level.length
decreasing_by
  have h2 := (levelUpP h level).2
  simp only [levelUp, h2]
  omega

/-- The tree data the claims mention (the Go `Tree` also caches all nodes
and the height, which no claim touches). -/
structure MTree where
  leaves : List Bytes
  root : Bytes
deriving DecidableEq, Repr

/-- Models `NewTree`: error on zero leaves, otherwise hash the leaves and
fold levels bottom-up. -/
def NewTree (h : Bytes → Bytes) (leaves : List Bytes) : Except String MTree :=
  if leaves.isEmpty then .error "cannot build Merkle tree with zero leaves"
  else .ok { leaves := leaves, root := buildRootAux h (leaves.map (hashLeaf h)) }

/-- Models `ProofElement`. -/
structure ProofElement where
  hash : Bytes
  isRight : Bool
deriving DecidableEq, Repr

/-- The proof-collection loop of `Tree.Proof`: at each level, emit the
sibling (if any) of the node at `idx`, then move to `idx / 2` one level
up.  An even index takes the right sibling when one exists (odd promotion
emits nothing); an odd index takes the left sibling. -/
def proofAux (h : Bytes → Bytes) (level : List Bytes) (idx : Nat) : List ProofElement :=
  if _hl : level.length ≤ 1 then []
  else
    let step : List ProofElement :=
      if idx % 2 = 0 then
        if idx + 1 < level.length then [⟨level.getD (idx + 1) [], true⟩] else []
      else [⟨level.getD (idx - 1) [], false⟩]
    step ++ proofAux h (levelUp h level) (idx / 2)
termination_by level.length
decreasing_by
  have h2 := (levelUpP h level).2
  simp only [levelUp, h2]
  omega

/-- Models `Tree.Proof`: range-check the index (Go also rejects negative
indices, which a `Nat` cannot express), then walk the rebuilt levels. -/
def TreeProof (h : Bytes → Bytes) (t : MTree) (index : Nat) :
    Except String (List ProofElement) :=
  if index < t.leaves.length then
    .ok (proofAux h (t.leaves.map (hashLeaf h)) index)
  else .error ("leaf index " ++ toString index ++ " out of range")

/-- The verification walk of `VerifyProof`: hash `current` with each
sibling in the dictated order. -/
def foldProof (h : Bytes → Bytes) (current : Bytes) (proof : List ProofElement) : Bytes :=
  proof.foldl
    (fun cur p => if p.isRight then hashNode h cur p.hash else hashNode h p.hash cur)
    current

/-- Models `VerifyProof`: walk from the leaf hash and compare with the
claimed root (`equal` in Go is element-wise byte equality). -/
def VerifyProof (h : Bytes → Bytes) (leafData : Bytes) (proof : List ProofElement)
    (root : Bytes) : Bool :=
  foldProof h (hashLeaf h leafData) proof == root

end SoHoLINK.merkle

namespace SoHoLINK.fixtures

open SoHoLINK.store SoHoLINK.verifier

/-! ## Concrete fixtures

Concrete instantiations of the abstract crypto parameters and small
concrete store states, used to evaluate the embedded code on explicit
inputs (for counterexamples and witnesses).  `dummyHash` is injective on
short ASCII usernames, which is all the concrete evaluations need. -/

/-- A concrete stand-in for `sha3.Sum256 ∘ utf8`: 32 bytes derived from the
characters of the string. -/
def dummyHash (s : String) : Bytes :=
  (s.toList.map (fun c => c.toNat % 256)).take 32 ++
    List.replicate (32 - s.length) 0

/-- A concrete stand-in for `ed25519.Sign`: an all-zero 64-byte signature. -/
def dummySign (_priv _msg : Bytes) : Bytes := List.replicate 64 0

/-- A concrete stand-in for `ed25519.Verify` that accepts everything. -/
def dummyVerifyTrue (_pub _msg _sig : Bytes) : Bool := true

/-- A user fixture with a non-`did:key:` identifier, so the verifier uses
the stored public key. -/
def testUser (id : Nat) (name : String) : User :=
  { id := id, username := name, did := ['d', name.toList.headD 'x'],
    publicKey := List.replicate 32 0, role := "basic", createdAt := 0, revokedAt := none }

/-- The default verifier configuration of `NewVerifier`:
TTL 1 hour, skew tolerance 5 minutes. -/
def defaultCfg : VerifierCfg :=
  { credentialTTL := 3600 * nsPerSecond, clockSkewTolerance := 300 * nsPerSecond }

/-- A concrete token created for `name` with the dummy crypto, timestamp 0
and an all-zero nonce. -/
def tokenFor (name : String) : List Char :=
  (CreateCredential dummyHash dummySign name (List.replicate 64 0) 0
    (List.replicate 8 0)).toOption.getD []

/-- The token for `name` as the User-Password attribute string. -/
def passwordFor (name : String) : String := String.mk (tokenFor name)

/-- The parsed form of `tokenFor name` (falling back to a dummy credential
if parsing were to fail, which the theorems show it does not). -/
def credFor (name : String) : Credential :=
  (ParseCredential (tokenFor name)).toOption.getD
    { timestamp := 0, nonce := [], usernameHash := [], signature := [],
      nonceHex := [], rawMsg := [] }

/-- Store fixture for the C1 counterexample: only user `"a"` exists. -/
def c1Store : StoreState := { users := [testUser 1 "a"], revocations := [], nonces := [] }

/-- Store fixture for the C4 counterexample: users `"a"` and `"b"` exist. -/
def c4Store : StoreState :=
  { users := [testUser 1 "a", testUser 2 "b"], revocations := [], nonces := [] }

/-- Store fixture for the C6 counterexample: user `"carol"` is already
revoked (her `revoked_at` is set and a revocation row exists). -/
def c6Store : StoreState :=
  { users := [{ testUser 1 "carol" with revokedAt := some 5 }],
    revocations := [⟨(testUser 1 "carol").did, "r0", 5⟩], nonces := [] }

/-- Store ops whose user lookup fails (a database error at step 2). -/
def errLookupOps : StoreOps Unit where
  getUserByUsername _ _ := .error "lookup db error"
  checkNonce _ _ := .ok false
  isRevoked _ _ := .ok false
  recordNonce s _ := .ok s

/-- Store ops whose nonce check fails (a database error at step 7). -/
def errNonceOps : StoreOps StoreState where
  getUserByUsername st u := .ok (st.users.find? (fun x => x.username == u))
  checkNonce _ _ := .error "nonce db error"
  isRevoked st d := .ok (st.revocations.any (fun r => r.did == d))
  recordNonce st n :=
    .ok (if st.nonces.contains n then st else { st with nonces := st.nonces ++ [n] })

/-- Store ops whose revocation check fails (a database error at step 8). -/
def errRevOps : StoreOps StoreState where
  getUserByUsername st u := .ok (st.users.find? (fun x => x.username == u))
  checkNonce st n := .ok (st.nonces.contains n)
  isRevoked _ _ := .error "revocation db error"
  recordNonce st n :=
    .ok (if st.nonces.contains n then st else { st with nonces := st.nonces ++ [n] })

end SoHoLINK.fixtures

namespace SoHoLINK

/-! # Theorems

First the codec-level lemmas, then one theorem per claim (with its
counterexample and witness where required). -/

/-! ## base64url -/

/-- Alphabet lookup inverts the alphabet table (all 64 digit values). -/
theorem b64val_b64char_fin : ∀ v : Fin 64, b64val (b64char v.1) = some v.1 := by decide

/-- Alphabet lookup inverts the alphabet table. -/
theorem b64val_b64char (v : Nat) (hv : v < 64) : b64val (b64char v) = some v :=
  b64val_b64char_fin ⟨v, hv⟩

/-- Decoding inverts encoding on byte strings. -/
theorem b64decode_b64encode :
    ∀ bs : Bytes, (∀ b ∈ bs, b < 256) → b64decode (b64encode bs) = some bs
  | [], _ => rfl
  | [b1], h => by
    have hb1 : b1 < 256 := h b1 (by simp)
    simp only [b64encode, b64decode]
    rw [b64val_b64char _ (by omega), b64val_b64char _ (by omega)]
    simp only [Option.bind_eq_bind, Option.some_bind, Option.pure_def, Option.some.injEq,
      List.cons.injEq, and_true]
    omega
  | [b1, b2], h => by
    have hb1 : b1 < 256 := h b1 (by simp)
    have hb2 : b2 < 256 := h b2 (by simp)
    simp only [b64encode, b64decode]
    rw [b64val_b64char _ (by omega), b64val_b64char _ (by omega),
      b64val_b64char _ (by omega)]
    simp only [Option.bind_eq_bind, Option.some_bind, Option.pure_def, Option.some.injEq,
      List.cons.injEq, and_true]
    omega
  | b1 :: b2 :: b3 :: rest, h => by
    have hb1 : b1 < 256 := h b1 (by simp)
    have hb2 : b2 < 256 := h b2 (by simp)
    have hb3 : b3 < 256 := h b3 (by simp)
    have ih := b64decode_b64encode rest (fun b hb => h b (by simp [hb]))
    simp only [b64encode, b64decode]
    rw [b64val_b64char _ (by omega), b64val_b64char _ (by omega),
      b64val_b64char _ (by omega), b64val_b64char _ (by omega)]
    simp only [Option.bind_eq_bind, Option.some_bind, Option.pure_def, ih,
      Option.some.injEq, List.cons.injEq, and_true]
    omega

/-! ## base58btc -/

/-- Alphabet lookup inverts the alphabet table (all 58 digit values). -/
theorem b58val_b58char_fin : ∀ v : Fin 58, b58val (b58char v.1) = some v.1 := by decide

/-- Alphabet lookup inverts the alphabet table. -/
theorem b58val_b58char (v : Nat) (hv : v < 58) : b58val (b58char v) = some v :=
  b58val_b58char_fin ⟨v, hv⟩

/-- Only the digit 0 maps to the character `'1'`. -/
theorem b58char_ne_one_fin : ∀ v : Fin 58, v.1 ≠ 0 → b58char v.1 ≠ '1' := by decide

/-- Digit-wise decoding inverts digit-wise encoding. -/
theorem mapM_b58val_map :
    ∀ ds : List Nat, (∀ d ∈ ds, d < 58) → (ds.map b58char).mapM b58val = some ds
  | [], _ => rfl
  | d :: ds, h => by
    have hd : d < 58 := h d (by simp)
    have ih := mapM_b58val_map ds (fun x hx => h x (by simp [hx]))
    simp only [List.map_cons, List.mapM_cons, b58val_b58char d hd, ih,
      Option.bind_eq_bind, Option.some_bind, Option.pure_def]

/-- The big-endian left fold is `Nat.ofDigits` of the reversed digit
list. -/
theorem foldl_eq_ofDigits (B : Nat) :
    ∀ L : List Nat, L.reverse.foldl (fun a v => a * B + v) 0 = Nat.ofDigits B L
  | [] => rfl
  | d :: L => by
    rw [List.reverse_cons, List.foldl_append, foldl_eq_ofDigits B L, Nat.ofDigits_cons]
    simp only [List.foldl_cons, List.foldl_nil]
    ring

/-- `bytesToNat` through `Nat.ofDigits`. -/
theorem bytesToNat_eq (bs : Bytes) : bytesToNat bs = Nat.ofDigits 256 bs.reverse := by
  have h := foldl_eq_ofDigits 256 bs.reverse
  rwa [List.reverse_reverse] at h

/-- Folding the base58 digits of `n` recovers `n`. -/
theorem foldl58_digits (n : Nat) :
    ((Nat.digits 58 n).reverse).foldl (fun a v => a * 58 + v) 0 = n := by
  rw [foldl_eq_ofDigits, Nat.ofDigits_digits]

/-- The fold is bounded below by its accumulator. -/
theorem foldl_byte_lower : ∀ (rest : Bytes) (a : Nat),
    a ≤ rest.foldl (fun x y => x * 256 + y) a
  | [], a => Nat.le_refl a
  | r :: rest, a => by
    have h := foldl_byte_lower rest (a * 256 + r)
    simp only [List.foldl_cons]
    omega

/-- A byte string with a nonzero head has a nonzero value. -/
theorem bytesToNat_pos (b : Nat) (rest : Bytes) (hb : b ≠ 0) :
    bytesToNat (b :: rest) ≠ 0 := by
  have h := foldl_byte_lower rest (0 * 256 + b)
  simp only [bytesToNat, List.foldl_cons]
  omega

/-- The base58 rendering of a nonzero number has no leading `'1'`. -/
theorem countLeadOnes_natToB58 (n : Nat) (hn : n ≠ 0) : countLeadOnes (natToB58 n) = 0 := by
  unfold natToB58
  rcases hr : (Nat.digits 58 n).reverse with _ | ⟨d, ds⟩
  · exact absurd (List.reverse_eq_nil_iff.mp hr) (Nat.digits_ne_nil_iff_ne_zero.mpr hn)
  · have hne : Nat.digits 58 n ≠ [] := Nat.digits_ne_nil_iff_ne_zero.mpr hn
    have hsome : (Nat.digits 58 n).getLast? = some d := by
      rw [← List.head?_reverse, hr, List.head?_cons]
    have hlast := List.getLast?_eq_getLast_of_ne_nil hne
    rw [hlast, Option.some.injEq] at hsome
    have hd0 : d ≠ 0 := hsome ▸ Nat.getLast_digit_ne_zero 58 hn
    have hd58 : d < 58 := Nat.digits_lt_base (by norm_num)
      (hsome ▸ List.getLast_mem hne)
    simp only [List.map_cons, countLeadOnes,
      if_neg (b58char_ne_one_fin ⟨d, hd58⟩ hd0)]

/-- Decoding inverts encoding on byte strings with a nonzero leading
byte. -/
theorem b58decode_b58encode (b : Nat) (rest : Bytes) (hb : b ≠ 0)
    (hlt : ∀ x ∈ b :: rest, x < 256) :
    b58decode (b58encode (b :: rest)) = some (b :: rest) := by
  have hn : bytesToNat (b :: rest) ≠ 0 := bytesToNat_pos b rest hb
  have hdigits : ∀ d ∈ (Nat.digits 58 (bytesToNat (b :: rest))).reverse, d < 58 := by
    intro d hd
    exact Nat.digits_lt_base (by norm_num) (List.mem_reverse.mp hd)
  have hlast : ∀ h : (b :: rest).reverse ≠ [],
      ((b :: rest).reverse).getLast h ≠ 0 := by
    intro h
    have h1 := List.getLast?_eq_getLast_of_ne_nil h
    rw [List.getLast?_reverse, List.head?_cons, eq_comm, Option.some.injEq] at h1
    intro hc
    exact hb (h1.symm.trans hc)
  have hrev : ∀ x ∈ (b :: rest).reverse, x < 256 := by
    intro x hx
    exact hlt x (List.mem_reverse.mp hx)
  simp only [b58encode, countZeroBytes, if_neg hb, List.replicate_zero, List.nil_append]
  simp only [b58decode, countLeadOnes_natToB58 _ hn]
  simp only [natToB58, mapM_b58val_map _ hdigits, Option.bind_eq_bind, Option.some_bind,
    Option.pure_def, List.replicate_zero, List.nil_append, foldl58_digits]
  rw [bytesToNat_eq, natToBytes,
    Nat.digits_ofDigits 256 (by norm_num) ((b :: rest).reverse) hrev hlast,
    List.reverse_reverse]

/-! ## C8 — DID codec -/

/-- C8: for every 32-byte Ed25519 public key `k`,
`DecodeDIDKey (EncodeDIDKey k)` succeeds and returns exactly `k`; and
`DecodeDIDKey` rejects any string that does not begin with `did:key:z`,
any base58 decoding failure, and any decoded payload whose length differs
from 34 bytes. -/
theorem C8_did_codec_roundtrip :
    (∀ pub : Bytes, pub.length = 32 → (∀ b ∈ pub, b < 256) →
      did.DecodeDIDKey (did.EncodeDIDKey pub) = .ok pub) ∧
    (∀ s : List Char, "did:key:z".toList.isPrefixOf s = false →
      ∃ e, did.DecodeDIDKey s = .error e) ∧
    (∀ s : List Char, b58decode (s.drop 9) = none →
      ∃ e, did.DecodeDIDKey s = .error e) ∧
    (∀ (s : List Char) (payload : Bytes), b58decode (s.drop 9) = some payload →
      payload.length ≠ 34 → ∃ e, did.DecodeDIDKey s = .error e) := by
  refine ⟨?_, ?_, ?_, ?_⟩
  · intro pub hlen hbytes
    have henc : did.ed25519MulticodecPrefix ++ pub = 237 :: 1 :: pub := rfl
    have hlt : ∀ x ∈ 237 :: 1 :: pub, x < 256 := by
      intro x hx
      simp only [List.mem_cons] at hx
      rcases hx with rfl | rfl | hx
      · norm_num
      · norm_num
      · exact hbytes x hx
    have hpre : "did:key:z".toList.isPrefixOf
        ("did:key:z".toList ++ b58encode (237 :: 1 :: pub)) = true := by
      rw [List.isPrefixOf_iff_prefix]
      exact List.prefix_append _ _
    have hdrop : ("did:key:z".toList ++ b58encode (237 :: 1 :: pub)).drop 9 =
        b58encode (237 :: 1 :: pub) :=
      List.drop_left' (by rfl)
    simp only [did.EncodeDIDKey, did.DecodeDIDKey, henc, hpre, if_true, hdrop,
      b58decode_b58encode 237 (1 :: pub) (by norm_num) hlt]
    have h1 : ¬ (237 :: 1 :: pub).length < did.ed25519MulticodecPrefix.length := by
      simp [did.ed25519MulticodecPrefix]
    have h2 : ¬ (237 :: 1 :: pub).take 2 ≠ did.ed25519MulticodecPrefix := by
      simp [did.ed25519MulticodecPrefix, List.take]
    have h3 : ¬ ((237 :: 1 :: pub).drop 2).length ≠ 32 := by
      simp [List.drop, hlen]
    simp only [if_neg h1, if_neg h2, if_neg h3, List.drop]
    simp [hlen]
  · intro s hs
    simp only [did.DecodeDIDKey, hs, Bool.false_eq_true, if_false]
    exact ⟨_, rfl⟩
  · intro s hs
    by_cases hp : "did:key:z".toList.isPrefixOf s = true
    · simp only [did.DecodeDIDKey, hp, if_true, hs]
      exact ⟨_, rfl⟩
    · simp only [did.DecodeDIDKey, hp, if_false]
      exact ⟨_, rfl⟩
  · intro s payload hs hlen
    by_cases hp : "did:key:z".toList.isPrefixOf s = true
    · simp only [did.DecodeDIDKey, hp, if_true, hs]
      by_cases h1 : payload.length < did.ed25519MulticodecPrefix.length
      · simp only [if_pos h1]
        exact ⟨_, rfl⟩
      · simp only [if_neg h1]
        by_cases h2 : payload.take 2 ≠ did.ed25519MulticodecPrefix
        · simp only [if_pos h2]
          exact ⟨_, rfl⟩
        · have h3 : (payload.drop 2).length ≠ 32 := by
            rw [List.length_drop]
            simp only [did.ed25519MulticodecPrefix, List.length_cons, List.length_nil] at h1
            omega
          simp only [if_neg h2, if_pos h3]
          exact ⟨_, rfl⟩
    · simp only [did.DecodeDIDKey, hp, if_false]
      exact ⟨_, rfl⟩

/-- Witness for C8 at concrete inputs: the all-zero 32-byte key
round-trips, and each rejection case fires on a concrete string. -/
theorem C8_did_codec_roundtrip_witness :
    did.DecodeDIDKey (did.EncodeDIDKey (List.replicate 32 0)) = .ok (List.replicate 32 0) ∧
    (∃ e, did.DecodeDIDKey ['x'] = .error e) ∧
    (∃ e, did.DecodeDIDKey ("did:key:z0".toList) = .error e) ∧
    (∃ e, did.DecodeDIDKey ("did:key:z".toList) = .error e) := by
  obtain ⟨h1, h2, h3, h4⟩ := C8_did_codec_roundtrip
  refine ⟨h1 (List.replicate 32 0) (by simp) (by simp), h2 ['x'] (by decide),
    h3 "did:key:z0".toList (by decide), h4 "did:key:z".toList [] ?_ (by decide)⟩
  simp [b58decode, List.mapM, List.mapM.loop, Nat.digits_zero, natToBytes, countLeadOnes]

/-! ## Credential codec lemmas -/

/-- All bytes of a big-endian `uint32` encoding are bytes. -/
theorem putUint32BE_lt (n : Nat) : ∀ b ∈ putUint32BE n, b < 256 := by
  intro b hb
  simp only [putUint32BE, List.mem_cons, List.not_mem_nil, or_false] at hb
  rcases hb with rfl | rfl | rfl | rfl <;> omega

/-- Reading back a big-endian `uint32` encoding of `n < 2^32`. -/
theorem beUint32_putUint32BE (n : Nat) (hn : n < 4294967296) (tail : Bytes) :
    beUint32 (putUint32BE n ++ tail) = n := by
  simp only [putUint32BE, List.cons_append, List.nil_append, beUint32]
  omega

/-- Slicing a `A ++ B ++ C ++ D` byte string at the credential's field
boundaries. -/
theorem slice84 (A B C D : Bytes) (hA : A.length = 4) (hB : B.length = 8)
    (hC : C.length = 8) (hD : D.length = 64) :
    (A ++ (B ++ (C ++ D))).length = 84 ∧
    ((A ++ (B ++ (C ++ D))).drop 4).take 8 = B ∧
    ((A ++ (B ++ (C ++ D))).drop 12).take 8 = C ∧
    (A ++ (B ++ (C ++ D))).drop 20 = D ∧
    (A ++ (B ++ (C ++ D))).take 20 = A ++ (B ++ C) := by
  refine ⟨by simp [hA, hB, hC, hD], ?_, ?_, ?_, ?_⟩
  · rw [List.drop_left' hA, List.take_left' hB]
  · have h : A ++ (B ++ (C ++ D)) = (A ++ B) ++ (C ++ D) := by simp
    rw [h, List.drop_left' (by simp [hA, hB]), List.take_left' hC]
  · have h : A ++ (B ++ (C ++ D)) = (A ++ (B ++ C)) ++ D := by simp
    rw [h, List.drop_left' (by simp [hA, hB, hC])]
  · have h : A ++ (B ++ (C ++ D)) = (A ++ (B ++ C)) ++ D := by simp
    rw [h, List.take_left' (by simp [hA, hB, hC])]

/-- Parsing a freshly created credential recovers every field: the
timestamp stamped at creation, the nonce, the 8-byte username digest, the
signature over the 20-byte pre-image, and the pre-image itself. -/
theorem ParseCredential_CreateCredential
    (sha3S : String → Bytes) (edSign : Bytes → Bytes → Bytes)
    (username : String) (priv : Bytes) (ts : Nat) (nonce : Bytes)
    (hu : username ≠ "") (hk : priv.length = 64) (hts : ts < 4294967296)
    (hn : nonce.length = 8) (hnb : ∀ b ∈ nonce, b < 256)
    (hhl : (sha3S username).length = 32) (hhb : ∀ b ∈ sha3S username, b < 256)
    (hsl : (verifier.signedMsg sha3S edSign username priv ts nonce).2.length = 64)
    (hsb : ∀ b ∈ (verifier.signedMsg sha3S edSign username priv ts nonce).2, b < 256) :
    verifier.CreateCredential sha3S edSign username priv ts nonce =
      .ok (b64encode ((verifier.signedMsg sha3S edSign username priv ts nonce).1 ++
        (verifier.signedMsg sha3S edSign username priv ts nonce).2)) ∧
    verifier.ParseCredential
        (b64encode ((verifier.signedMsg sha3S edSign username priv ts nonce).1 ++
          (verifier.signedMsg sha3S edSign username priv ts nonce).2)) =
      .ok { timestamp := ts, nonce := nonce,
            usernameHash := (sha3S username).take verifier.usernameHashSize,
            signature := (verifier.signedMsg sha3S edSign username priv ts nonce).2,
            nonceHex := hexEncode nonce,
            rawMsg := (verifier.signedMsg sha3S edSign username priv ts nonce).1 } := by
  set C := (sha3S username).take verifier.usernameHashSize with hCdef
  have hC : C.length = 8 := by
    simp [hCdef, List.length_take, hhl, verifier.usernameHashSize]
  have hCb : ∀ b ∈ C, b < 256 := fun b hb => hhb b (List.mem_of_mem_take hb)
  have hmsg : (verifier.signedMsg sha3S edSign username priv ts nonce).1 =
      putUint32BE ts ++ (nonce ++ C) := by
    simp [verifier.signedMsg, hCdef]
  have hraw : (verifier.signedMsg sha3S edSign username priv ts nonce).1 ++
      (verifier.signedMsg sha3S edSign username priv ts nonce).2 =
      putUint32BE ts ++ (nonce ++ (C ++
        (verifier.signedMsg sha3S edSign username priv ts nonce).2)) := by
    rw [hmsg]; simp
  obtain ⟨hlen, hsB, hsC, hsD, hsTake⟩ :=
    slice84 (putUint32BE ts) nonce C (verifier.signedMsg sha3S edSign username priv ts nonce).2
      (by simp [putUint32BE]) hn hC hsl
  have hallb : ∀ b ∈ putUint32BE ts ++ (nonce ++ (C ++
      (verifier.signedMsg sha3S edSign username priv ts nonce).2)), b < 256 := by
    intro b hb
    simp only [List.mem_append] at hb
    rcases hb with hb | hb | hb | hb
    · exact putUint32BE_lt ts b hb
    · exact hnb b hb
    · exact hCb b hb
    · exact hsb b hb
  constructor
  · simp only [verifier.CreateCredential, if_neg hu, hk, if_neg (by omega : ¬ (64 : Nat) ≠ 64)]
  · rw [hraw]
    simp only [verifier.ParseCredential, b64decode_b64encode _ hallb, hlen]
    norm_num [verifier.credentialSize, verifier.timestampSize, verifier.nonceSize,
      verifier.usernameHashSize, verifier.signatureSize]
    rw [beUint32_putUint32BE ts hts]
    refine ⟨rfl, ?_, ?_, ?_, ?_, ?_⟩
    · exact hsB
    · exact hsC
    · exact hsD
    · rw [hsB]
    · rw [hsTake, ← hmsg]

/-! ## C7 — credential round-trip -/

/-- C7: for every non-empty username and every 64-byte Ed25519 private
key, `ParseCredential (CreateCredential username priv)` succeeds and yields
the timestamp stamped at creation, the same 8-byte nonce, a username
digest equal to the first 8 bytes of SHA3-256(username), and a 64-byte
signature over the 20-byte pre-image that verifies under the corresponding
public key.  `sha3S`, `edSign`, `edVerify`, `pubOf` model the external
crypto primitives; their output sizes and the Ed25519 correctness law are
hypotheses. -/
theorem C7_credential_roundtrip
    (sha3S : String → Bytes) (edSign : Bytes → Bytes → Bytes)
    (edVerify : Bytes → Bytes → Bytes → Bool) (pubOf : Bytes → Bytes)
    (username : String) (priv : Bytes) (ts : Nat) (nonce : Bytes)
    (hu : username ≠ "") (hk : priv.length = 64) (hts : ts < 4294967296)
    (hn : nonce.length = 8) (hnb : ∀ b ∈ nonce, b < 256)
    (hhl : (sha3S username).length = 32) (hhb : ∀ b ∈ sha3S username, b < 256)
    (hsl : ∀ m, (edSign priv m).length = 64)
    (hsb : ∀ m, ∀ b ∈ edSign priv m, b < 256)
    (hed : ∀ m, edVerify (pubOf priv) m (edSign priv m) = true) :
    ∃ token,
      verifier.CreateCredential sha3S edSign username priv ts nonce = .ok token ∧
      verifier.ParseCredential token = .ok
        { timestamp := ts, nonce := nonce,
          usernameHash := (sha3S username).take verifier.usernameHashSize,
          signature := (verifier.signedMsg sha3S edSign username priv ts nonce).2,
          nonceHex := hexEncode nonce,
          rawMsg := (verifier.signedMsg sha3S edSign username priv ts nonce).1 } ∧
      (verifier.signedMsg sha3S edSign username priv ts nonce).2.length = 64 ∧
      edVerify (pubOf priv) (verifier.signedMsg sha3S edSign username priv ts nonce).1
        (verifier.signedMsg sha3S edSign username priv ts nonce).2 = true := by
  obtain ⟨hcreate, hparse⟩ :=
    ParseCredential_CreateCredential sha3S edSign username priv ts nonce hu hk hts hn hnb
      hhl hhb (hsl _) (hsb _)
  exact ⟨_, hcreate, hparse, hsl _, hed _⟩

/-- Witness for C7 at a concrete input: username `"a"`, the all-zero
64-byte private key, timestamp 0 and the all-zero nonce, with the dummy
crypto instantiation. -/
theorem C7_credential_roundtrip_witness :
    ∃ token,
      verifier.CreateCredential fixtures.dummyHash fixtures.dummySign "a"
        (List.replicate 64 0) 0 (List.replicate 8 0) = .ok token ∧
      verifier.ParseCredential token = .ok
        { timestamp := 0, nonce := List.replicate 8 0,
          usernameHash := (fixtures.dummyHash "a").take verifier.usernameHashSize,
          signature := (verifier.signedMsg fixtures.dummyHash fixtures.dummySign "a"
            (List.replicate 64 0) 0 (List.replicate 8 0)).2,
          nonceHex := hexEncode (List.replicate 8 0),
          rawMsg := (verifier.signedMsg fixtures.dummyHash fixtures.dummySign "a"
            (List.replicate 64 0) 0 (List.replicate 8 0)).1 } ∧
      (verifier.signedMsg fixtures.dummyHash fixtures.dummySign "a"
        (List.replicate 64 0) 0 (List.replicate 8 0)).2.length = 64 ∧
      fixtures.dummyVerifyTrue []
        (verifier.signedMsg fixtures.dummyHash fixtures.dummySign "a"
          (List.replicate 64 0) 0 (List.replicate 8 0)).1
        (verifier.signedMsg fixtures.dummyHash fixtures.dummySign "a"
          (List.replicate 64 0) 0 (List.replicate 8 0)).2 = true :=
  C7_credential_roundtrip fixtures.dummyHash fixtures.dummySign fixtures.dummyVerifyTrue
    (fun _ => []) "a" (List.replicate 64 0) 0 (List.replicate 8 0)
    (by decide) (by simp) (by decide) (by simp) (by simp)
    (by decide) (by decide)
    (fun _ => by simp [fixtures.dummySign])
    (fun _ => by simp [fixtures.dummySign])
    (fun _ => rfl)

/-! ## Verifier lemmas -/

namespace verifier

/-- Two `deny` results with reasons starting in different characters are
different. -/
theorem deny_ne_of_first_char {r₁ d₁ r₂ d₂ : String} {c₁ c₂ : Char}
    (h₁ : r₁.data.head? = some c₁) (h₂ : r₂.data.head? = some c₂) (hc : c₁ ≠ c₂) :
    deny r₁ d₁ ≠ deny r₂ d₂ := by
  intro h
  have hr : (r₁ ++ ": " ++ d₁).data = (r₂ ++ ": " ++ d₂).data := by
    have h' := congrArg VerifyResult.reason h
    simpa [deny] using congrArg String.data h'
  rcases hd₁ : r₁.data with _ | ⟨a₁, t₁⟩
  · rw [hd₁] at h₁
    simp at h₁
  · rcases hd₂ : r₂.data with _ | ⟨a₂, t₂⟩
    · rw [hd₂] at h₂
      simp at h₂
    · rw [hd₁, List.head?_cons, Option.some.injEq] at h₁
      rw [hd₂, List.head?_cons, Option.some.injEq] at h₂
      rw [String.data_append, String.data_append, String.data_append, String.data_append,
        hd₁, hd₂] at hr
      simp only [List.cons_append, List.cons.injEq] at hr
      exact hc (h₁ ▸ h₂ ▸ hr.1)

/-- An allowed result is never a `deny`. -/
theorem allowed_ne_deny (u : String) (dd : List Char) (ro r d : String) :
    ({ allowed := true, reason := "authenticated", username := u,
       did := dd, role := ro } : VerifyResult) ≠ deny r d := by
  intro h
  have h' := congrArg VerifyResult.allowed h
  simp [deny] at h'

end verifier

/-! ## C2 — temporal check -/

/-- C2: for every token that passes parsing, user lookup, username-digest
and signature checks, with `age = now − token.timestamp`, TTL `L` and skew
tolerance `τ`: if `age ∈ [−τ, L + τ]` the verifier does not reject for a
temporal reason; if `age < −τ` it denies with reason `credential_future`;
if `age > L + τ` it denies with reason `credential_expired`. -/
theorem C2_temporal_check :
    (∀ (σ : Type) (sha3S : String → Bytes) (edVerify : Bytes → Bytes → Bytes → Bool)
      (v : verifier.VerifierCfg) (ops : store.StoreOps σ) (st : σ) (now : Int)
      (username : String) (token : List Char) (cred : verifier.Credential)
      (user : store.User),
      verifier.ParseCredential token = .ok cred →
      ops.getUserByUsername st username = .ok (some user) →
      verifier.constantTimeCompare cred.usernameHash
        ((sha3S username).take verifier.usernameHashSize) = 1 →
      edVerify (verifier.resolvePublicKey user) cred.rawMsg cred.signature = true →
      -v.clockSkewTolerance ≤ now - (cred.timestamp : Int) * verifier.nsPerSecond →
      now - (cred.timestamp : Int) * verifier.nsPerSecond ≤
        v.credentialTTL + v.clockSkewTolerance →
      ∀ d : String,
        (verifier.Verify sha3S edVerify v ops st now username token).1 ≠
          verifier.deny "credential_future" d ∧
        (verifier.Verify sha3S edVerify v ops st now username token).1 ≠
          verifier.deny "credential_expired" d) ∧
    (∀ (σ : Type) (sha3S : String → Bytes) (edVerify : Bytes → Bytes → Bytes → Bool)
      (v : verifier.VerifierCfg) (ops : store.StoreOps σ) (st : σ) (now : Int)
      (username : String) (token : List Char) (cred : verifier.Credential)
      (user : store.User),
      verifier.ParseCredential token = .ok cred →
      ops.getUserByUsername st username = .ok (some user) →
      verifier.constantTimeCompare cred.usernameHash
        ((sha3S username).take verifier.usernameHashSize) = 1 →
      edVerify (verifier.resolvePublicKey user) cred.rawMsg cred.signature = true →
      now - (cred.timestamp : Int) * verifier.nsPerSecond < -v.clockSkewTolerance →
      verifier.Verify sha3S edVerify v ops st now username token =
        (verifier.deny "credential_future"
          (verifier.credentialFutureDetail
            (now - (cred.timestamp : Int) * verifier.nsPerSecond) v.clockSkewTolerance),
         none, st)) ∧
    (∀ (σ : Type) (sha3S : String → Bytes) (edVerify : Bytes → Bytes → Bytes → Bool)
      (v : verifier.VerifierCfg) (ops : store.StoreOps σ) (st : σ) (now : Int)
      (username : String) (token : List Char) (cred : verifier.Credential)
      (user : store.User),
      verifier.ParseCredential token = .ok cred →
      ops.getUserByUsername st username = .ok (some user) →
      verifier.constantTimeCompare cred.usernameHash
        ((sha3S username).take verifier.usernameHashSize) = 1 →
      edVerify (verifier.resolvePublicKey user) cred.rawMsg cred.signature = true →
      ¬ (now - (cred.timestamp : Int) * verifier.nsPerSecond < -v.clockSkewTolerance) →
      now - (cred.timestamp : Int) * verifier.nsPerSecond >
        v.credentialTTL + v.clockSkewTolerance →
      verifier.Verify sha3S edVerify v ops st now username token =
        (verifier.deny "credential_expired"
          (verifier.credentialExpiredDetail
            (now - (cred.timestamp : Int) * verifier.nsPerSecond)
            v.credentialTTL v.clockSkewTolerance),
         none, st)) := by
  refine ⟨?_, ?_, ?_⟩
  · intro σ sha3S edVerify v ops st now username token cred user hparse hlookup hc hsig
      hge hle d
    have hnotfuture : ¬ (now - (cred.timestamp : Int) * verifier.nsPerSecond <
        -v.clockSkewTolerance) := by omega
    have hnotexp : ¬ (now - (cred.timestamp : Int) * verifier.nsPerSecond >
        v.credentialTTL + v.clockSkewTolerance) := by omega
    simp only [verifier.Verify, hparse, hlookup, hc, hsig]
    simp only [ne_eq, not_true_eq_false, Bool.true_eq_false, if_false,
      if_neg hnotfuture, if_neg hnotexp]
    rcases h7 : ops.checkNonce st cred.nonceHex with e | b
    · constructor
      · exact verifier.deny_ne_of_first_char rfl rfl (by decide)
      · exact verifier.deny_ne_of_first_char rfl rfl (by decide)
    · rcases b with _ | _
      · rcases h8 : ops.isRevoked st user.did with e | b8
        · constructor
          · exact verifier.deny_ne_of_first_char rfl rfl (by decide)
          · exact verifier.deny_ne_of_first_char rfl rfl (by decide)
        · rcases b8 with _ | _
          · constructor
            · exact verifier.allowed_ne_deny _ _ _ _ _
            · exact verifier.allowed_ne_deny _ _ _ _ _
          · constructor
            · exact verifier.deny_ne_of_first_char rfl rfl (by decide)
            · exact verifier.deny_ne_of_first_char rfl rfl (by decide)
      · constructor
        · exact verifier.deny_ne_of_first_char rfl rfl (by decide)
        · exact verifier.deny_ne_of_first_char rfl rfl (by decide)
  · intro σ sha3S edVerify v ops st now username token cred user hparse hlookup hc hsig hlt
    simp only [verifier.Verify, hparse, hlookup, hc, hsig]
    simp only [ne_eq, not_true_eq_false, Bool.true_eq_false, if_false, if_pos hlt]
  · intro σ sha3S edVerify v ops st now username token cred user hparse hlookup hc hsig
      hnf hgt
    simp only [verifier.Verify, hparse, hlookup, hc, hsig]
    simp only [ne_eq, not_true_eq_false, Bool.true_eq_false, if_false,
      if_neg hnf, if_pos hgt]

/-- Witness for C2 at concrete inputs: user `"a"`, a token with timestamp
0, and three concrete clocks — in the window (`now = 0`), 301 s early, and
3901 s late (TTL 1 h, tolerance 5 min). -/
theorem C2_temporal_check_witness :
    ((verifier.Verify fixtures.dummyHash fixtures.dummyVerifyTrue fixtures.defaultCfg
        store.memOps fixtures.c1Store 0 "a" (fixtures.tokenFor "a")).1 ≠
      verifier.deny "credential_future" "x" ∧
     (verifier.Verify fixtures.dummyHash fixtures.dummyVerifyTrue fixtures.defaultCfg
        store.memOps fixtures.c1Store 0 "a" (fixtures.tokenFor "a")).1 ≠
      verifier.deny "credential_expired" "x") ∧
    verifier.Verify fixtures.dummyHash fixtures.dummyVerifyTrue fixtures.defaultCfg
        store.memOps fixtures.c1Store (-301 * verifier.nsPerSecond) "a"
        (fixtures.tokenFor "a") =
      (verifier.deny "credential_future"
        (verifier.credentialFutureDetail
          (-301 * verifier.nsPerSecond - ((fixtures.credFor "a").timestamp : Int) *
            verifier.nsPerSecond)
          fixtures.defaultCfg.clockSkewTolerance), none, fixtures.c1Store) ∧
    verifier.Verify fixtures.dummyHash fixtures.dummyVerifyTrue fixtures.defaultCfg
        store.memOps fixtures.c1Store (3901 * verifier.nsPerSecond) "a"
        (fixtures.tokenFor "a") =
      (verifier.deny "credential_expired"
        (verifier.credentialExpiredDetail
          (3901 * verifier.nsPerSecond - ((fixtures.credFor "a").timestamp : Int) *
            verifier.nsPerSecond)
          fixtures.defaultCfg.credentialTTL fixtures.defaultCfg.clockSkewTolerance),
       none, fixtures.c1Store) := by
  obtain ⟨hA, hB, hC⟩ := C2_temporal_check
  refine ⟨⟨?_, ?_⟩, ?_, ?_⟩
  · exact (hA _ fixtures.dummyHash fixtures.dummyVerifyTrue fixtures.defaultCfg
      store.memOps fixtures.c1Store 0 "a" (fixtures.tokenFor "a") (fixtures.credFor "a")
      (fixtures.testUser 1 "a") rfl rfl (by decide) rfl
      (by decide) (by decide) "x").1
  · exact (hA _ fixtures.dummyHash fixtures.dummyVerifyTrue fixtures.defaultCfg
      store.memOps fixtures.c1Store 0 "a" (fixtures.tokenFor "a") (fixtures.credFor "a")
      (fixtures.testUser 1 "a") rfl rfl (by decide) rfl
      (by decide) (by decide) "x").2
  · exact hB _ fixtures.dummyHash fixtures.dummyVerifyTrue fixtures.defaultCfg
      store.memOps fixtures.c1Store (-301 * verifier.nsPerSecond) "a"
      (fixtures.tokenFor "a") (fixtures.credFor "a") (fixtures.testUser 1 "a")
      rfl rfl (by decide) rfl (by decide)
  · exact hC _ fixtures.dummyHash fixtures.dummyVerifyTrue fixtures.defaultCfg
      store.memOps fixtures.c1Store (3901 * verifier.nsPerSecond) "a"
      (fixtures.tokenFor "a") (fixtures.credFor "a") (fixtures.testUser 1 "a")
      rfl rfl (by decide) rfl (by decide) (by decide)

/-! ## C1 — username binding -/

/-- Counterexample to C1 as stated: the claim asserts the
`username_mismatch` reason also when `u2` is not stored at all, but on the
concrete store holding only user `"a"`, presenting a token created by
`CreateCredential` for `"a"` under the absent username `"b"` is denied
with reason `user_not_found` (step 2 precedes the digest check), not
`username_mismatch`. -/
theorem C1_username_mismatch_counterexample :
    verifier.CreateCredential fixtures.dummyHash fixtures.dummySign "a"
      (List.replicate 64 0) 0 (List.replicate 8 0) = .ok (fixtures.tokenFor "a") ∧
    store.memOps.getUserByUsername fixtures.c1Store "b" = .ok none ∧
    (verifier.Verify fixtures.dummyHash fixtures.dummyVerifyTrue fixtures.defaultCfg
        store.memOps fixtures.c1Store 0 "b" (fixtures.tokenFor "a")).1 =
      verifier.deny "user_not_found" "user \x27b\x27 not found" ∧
    ("username_mismatch".toList.isPrefixOf
      (verifier.Verify fixtures.dummyHash fixtures.dummyVerifyTrue fixtures.defaultCfg
        store.memOps fixtures.c1Store 0 "b" (fixtures.tokenFor "a")).1.reason.toList) =
      false :=
  ⟨rfl, rfl, rfl, by decide⟩

/-- C1 (amended): a token created by `CreateCredential (u1, k1)` and
presented under username `u2 ≠ u1` is denied — with reason
`username_mismatch` when `u2` is a stored user (assuming the 8-byte
SHA3-256 digests of the two usernames differ, the collision-freeness the
design relies on), and with reason `user_not_found` when `u2` is not
stored.  The original claim asserted `username_mismatch` in both cases. -/
theorem C1_username_mismatch_amended :
    (∀ (σ : Type) (sha3S : String → Bytes) (edSign : Bytes → Bytes → Bytes)
      (edVerify : Bytes → Bytes → Bytes → Bool) (v : verifier.VerifierCfg)
      (ops : store.StoreOps σ) (st : σ) (now : Int) (u1 u2 : String)
      (priv : Bytes) (ts : Nat) (nonce : Bytes) (user2 : store.User),
      u1 ≠ "" → priv.length = 64 → ts < 4294967296 →
      nonce.length = 8 → (∀ b ∈ nonce, b < 256) →
      (sha3S u1).length = 32 → (∀ b ∈ sha3S u1, b < 256) →
      (verifier.signedMsg sha3S edSign u1 priv ts nonce).2.length = 64 →
      (∀ b ∈ (verifier.signedMsg sha3S edSign u1 priv ts nonce).2, b < 256) →
      ops.getUserByUsername st u2 = .ok (some user2) →
      (sha3S u1).take verifier.usernameHashSize ≠
        (sha3S u2).take verifier.usernameHashSize →
      ∀ token, verifier.CreateCredential sha3S edSign u1 priv ts nonce = .ok token →
      (verifier.Verify sha3S edVerify v ops st now u2 token).1 =
        verifier.deny "username_mismatch" "credential was not issued for this username") ∧
    (∀ (σ : Type) (sha3S : String → Bytes) (edSign : Bytes → Bytes → Bytes)
      (edVerify : Bytes → Bytes → Bytes → Bool) (v : verifier.VerifierCfg)
      (ops : store.StoreOps σ) (st : σ) (now : Int) (u1 u2 : String)
      (priv : Bytes) (ts : Nat) (nonce : Bytes),
      u1 ≠ "" → priv.length = 64 → ts < 4294967296 →
      nonce.length = 8 → (∀ b ∈ nonce, b < 256) →
      (sha3S u1).length = 32 → (∀ b ∈ sha3S u1, b < 256) →
      (verifier.signedMsg sha3S edSign u1 priv ts nonce).2.length = 64 →
      (∀ b ∈ (verifier.signedMsg sha3S edSign u1 priv ts nonce).2, b < 256) →
      ops.getUserByUsername st u2 = .ok none →
      ∀ token, verifier.CreateCredential sha3S edSign u1 priv ts nonce = .ok token →
      (verifier.Verify sha3S edVerify v ops st now u2 token).1 =
        verifier.deny "user_not_found" ("user \x27" ++ u2 ++ "\x27 not found")) := by
  constructor
  · intro σ sha3S edSign edVerify v ops st now u1 u2 priv ts nonce user2
      hu hk hts hn hnb hhl hhb hsl hsb hlookup hdig token hcreate
    obtain ⟨hcreate', hparse⟩ :=
      ParseCredential_CreateCredential sha3S edSign u1 priv ts nonce hu hk hts hn hnb
        hhl hhb hsl hsb
    rw [hcreate'] at hcreate
    injection hcreate with htok
    subst htok
    have hcmp : verifier.constantTimeCompare
        ((sha3S u1).take verifier.usernameHashSize)
        ((sha3S u2).take verifier.usernameHashSize) = 0 := by
      simp [verifier.constantTimeCompare, hdig]
    simp only [verifier.Verify, hparse, hlookup, hcmp]
    norm_num
  · intro σ sha3S edSign edVerify v ops st now u1 u2 priv ts nonce
      hu hk hts hn hnb hhl hhb hsl hsb hlookup token hcreate
    obtain ⟨hcreate', hparse⟩ :=
      ParseCredential_CreateCredential sha3S edSign u1 priv ts nonce hu hk hts hn hnb
        hhl hhb hsl hsb
    rw [hcreate'] at hcreate
    injection hcreate with htok
    subst htok
    simp only [verifier.Verify, hparse, hlookup]

/-- Witness for C1 (amended) at concrete inputs: with users `"a"` and
`"b"` stored, the token for `"a"` presented as `"b"` is denied
`username_mismatch`; with only `"a"` stored, the token for `"a"` presented
as `"b"` is denied `user_not_found`. -/
theorem C1_username_mismatch_amended_witness :
    (verifier.Verify fixtures.dummyHash fixtures.dummyVerifyTrue fixtures.defaultCfg
        store.memOps fixtures.c4Store 0 "b" (fixtures.tokenFor "a")).1 =
      verifier.deny "username_mismatch" "credential was not issued for this username" ∧
    (verifier.Verify fixtures.dummyHash fixtures.dummyVerifyTrue fixtures.defaultCfg
        store.memOps fixtures.c1Store 0 "b" (fixtures.tokenFor "a")).1 =
      verifier.deny "user_not_found" ("user \x27" ++ "b" ++ "\x27 not found") := by
  obtain ⟨hA, hB⟩ := C1_username_mismatch_amended
  constructor
  · exact hA _ fixtures.dummyHash fixtures.dummySign fixtures.dummyVerifyTrue
      fixtures.defaultCfg store.memOps fixtures.c4Store 0 "a" "b"
      (List.replicate 64 0) 0 (List.replicate 8 0) (fixtures.testUser 2 "b")
      (by decide) (by simp) (by decide) (by simp) (by simp) (by decide) (by decide)
      (by decide) (by decide) rfl (by decide) (fixtures.tokenFor "a") rfl
  · exact hB _ fixtures.dummyHash fixtures.dummySign fixtures.dummyVerifyTrue
      fixtures.defaultCfg store.memOps fixtures.c1Store 0 "a" "b"
      (List.replicate 64 0) 0 (List.replicate 8 0)
      (by decide) (by simp) (by decide) (by simp) (by simp) (by decide) (by decide)
      (by decide) (by decide) rfl (fixtures.tokenFor "a") rfl

/-! ## C3 — nonce replay -/

/-- C3: if a call to `Verify` over the failure-free store is allowed, then
a second call with the same token against the post-state of the first
(with no intervening nonce pruning, and while the token is still inside
its temporal window) finds the nonce recorded at step 9 — `CheckNonce`
returns `true` — and is denied with reason `nonce_replay`. -/
theorem C3_nonce_replay (sha3S : String → Bytes) (edVerify : Bytes → Bytes → Bytes → Bool)
    (v : verifier.VerifierCfg) (st : store.StoreState) (now now2 : Int)
    (username : String) (token : List Char) (cred : verifier.Credential)
    (hparse : verifier.ParseCredential token = .ok cred)
    (hall : (verifier.Verify sha3S edVerify v store.memOps st now username token).1.allowed
      = true)
    (hge : -v.clockSkewTolerance ≤ now2 - (cred.timestamp : Int) * verifier.nsPerSecond)
    (hle : now2 - (cred.timestamp : Int) * verifier.nsPerSecond ≤
      v.credentialTTL + v.clockSkewTolerance) :
    store.memOps.checkNonce
        (verifier.Verify sha3S edVerify v store.memOps st now username token).2.2
        cred.nonceHex = .ok true ∧
    (verifier.Verify sha3S edVerify v store.memOps
        (verifier.Verify sha3S edVerify v store.memOps st now username token).2.2
        now2 username token).1 =
      verifier.deny "nonce_replay" "credential token has already been used" := by
  rcases hfind : st.users.find? (fun x => x.username == username) with _ | user
  · exfalso
    simp only [verifier.Verify, hparse, store.memOps, hfind, verifier.deny] at hall
    exact absurd hall (by decide)
  · by_cases hcmp : verifier.constantTimeCompare cred.usernameHash
        ((sha3S username).take verifier.usernameHashSize) ≠ 1
    · exfalso
      simp only [verifier.Verify, hparse, store.memOps, hfind, if_pos hcmp,
        verifier.deny] at hall
      exact absurd hall (by decide)
    · by_cases hsig : edVerify (verifier.resolvePublicKey user) cred.rawMsg cred.signature
          = false
      · exfalso
        simp only [verifier.Verify, hparse, store.memOps, hfind, if_neg hcmp,
          if_pos hsig, verifier.deny] at hall
        exact absurd hall (by decide)
      · by_cases hfut : now - (cred.timestamp : Int) * verifier.nsPerSecond <
            -v.clockSkewTolerance
        · exfalso
          simp only [verifier.Verify, hparse, store.memOps, hfind, if_neg hcmp,
            if_neg hsig, if_pos hfut, verifier.deny] at hall
          exact absurd hall (by decide)
        · by_cases hexp : now - (cred.timestamp : Int) * verifier.nsPerSecond >
              v.credentialTTL + v.clockSkewTolerance
          · exfalso
            simp only [verifier.Verify, hparse, store.memOps, hfind, if_neg hcmp,
              if_neg hsig, if_neg hfut, if_pos hexp, verifier.deny] at hall
            exact absurd hall (by decide)
          · rcases hn7 : st.nonces.contains cred.nonceHex with _ | _
            · rcases hr8 : st.revocations.any (fun r => r.did == user.did) with _ | _
              · have hst1 : (verifier.Verify sha3S edVerify v store.memOps st now
                    username token).2.2 =
                    { st with nonces := st.nonces ++ [cred.nonceHex] } := by
                  simp only [verifier.Verify, hparse, store.memOps, hfind, if_neg hcmp,
                    if_neg hsig, if_neg hfut, if_neg hexp, hn7, hr8]
                  simp
                have hmem : (st.nonces ++ [cred.nonceHex]).contains cred.nonceHex
                    = true := by
                  simp [List.contains_eq_any_beq]
                constructor
                · rw [hst1]
                  simp only [store.memOps, hmem]
                · rw [hst1]
                  simp only [verifier.Verify, hparse, store.memOps, hfind, if_neg hcmp,
                    if_neg hsig, if_neg (by omega :
                      ¬ now2 - (cred.timestamp : Int) * verifier.nsPerSecond <
                        -v.clockSkewTolerance),
                    if_neg (by omega :
                      ¬ now2 - (cred.timestamp : Int) * verifier.nsPerSecond >
                        v.credentialTTL + v.clockSkewTolerance), hmem]
              · exfalso
                simp only [verifier.Verify, hparse, store.memOps, hfind, if_neg hcmp,
                  if_neg hsig, if_neg hfut, if_neg hexp, hn7, hr8, verifier.deny] at hall
                exact absurd hall (by decide)
            · exfalso
              simp only [verifier.Verify, hparse, store.memOps, hfind, if_neg hcmp,
                if_neg hsig, if_neg hfut, if_neg hexp, hn7, verifier.deny] at hall
              exact absurd hall (by decide)

/-- Witness for C3 at a concrete input: the token for `"a"` is accepted
once against the store holding user `"a"`, and the replayed call is denied
`nonce_replay`. -/
theorem C3_nonce_replay_witness :
    store.memOps.checkNonce
        (verifier.Verify fixtures.dummyHash fixtures.dummyVerifyTrue fixtures.defaultCfg
          store.memOps fixtures.c1Store 0 "a" (fixtures.tokenFor "a")).2.2
        (fixtures.credFor "a").nonceHex = .ok true ∧
    (verifier.Verify fixtures.dummyHash fixtures.dummyVerifyTrue fixtures.defaultCfg
        store.memOps
        (verifier.Verify fixtures.dummyHash fixtures.dummyVerifyTrue fixtures.defaultCfg
          store.memOps fixtures.c1Store 0 "a" (fixtures.tokenFor "a")).2.2
        0 "a" (fixtures.tokenFor "a")).1 =
      verifier.deny "nonce_replay" "credential token has already been used" :=
  C3_nonce_replay fixtures.dummyHash fixtures.dummyVerifyTrue fixtures.defaultCfg
    fixtures.c1Store 0 0 "a" (fixtures.tokenFor "a") (fixtures.credFor "a")
    rfl rfl (by decide) (by decide)

/-! ## C5 — internal store errors -/

/-- C5: a store error during user lookup (step 2), nonce check (step 7) or
revocation check (step 8) makes `Verify` return a `internal_error` denial
together with the underlying error; and whenever `Verify` returns a store
error, the result is not allowed. -/
theorem C5_internal_errors :
    (∀ (σ : Type) (sha3S : String → Bytes) (edVerify : Bytes → Bytes → Bytes → Bool)
      (v : verifier.VerifierCfg) (ops : store.StoreOps σ) (st : σ) (now : Int)
      (username : String) (token : List Char) (cred : verifier.Credential) (e : String),
      verifier.ParseCredential token = .ok cred →
      ops.getUserByUsername st username = .error e →
      verifier.Verify sha3S edVerify v ops st now username token =
        (verifier.deny "internal_error" "database lookup failed", some e, st)) ∧
    (∀ (σ : Type) (sha3S : String → Bytes) (edVerify : Bytes → Bytes → Bytes → Bool)
      (v : verifier.VerifierCfg) (ops : store.StoreOps σ) (st : σ) (now : Int)
      (username : String) (token : List Char) (cred : verifier.Credential)
      (user : store.User) (e : String),
      verifier.ParseCredential token = .ok cred →
      ops.getUserByUsername st username = .ok (some user) →
      verifier.constantTimeCompare cred.usernameHash
        ((sha3S username).take verifier.usernameHashSize) = 1 →
      edVerify (verifier.resolvePublicKey user) cred.rawMsg cred.signature = true →
      -v.clockSkewTolerance ≤ now - (cred.timestamp : Int) * verifier.nsPerSecond →
      now - (cred.timestamp : Int) * verifier.nsPerSecond ≤
        v.credentialTTL + v.clockSkewTolerance →
      ops.checkNonce st cred.nonceHex = .error e →
      verifier.Verify sha3S edVerify v ops st now username token =
        (verifier.deny "internal_error" "nonce check failed", some e, st)) ∧
    (∀ (σ : Type) (sha3S : String → Bytes) (edVerify : Bytes → Bytes → Bytes → Bool)
      (v : verifier.VerifierCfg) (ops : store.StoreOps σ) (st : σ) (now : Int)
      (username : String) (token : List Char) (cred : verifier.Credential)
      (user : store.User) (e : String),
      verifier.ParseCredential token = .ok cred →
      ops.getUserByUsername st username = .ok (some user) →
      verifier.constantTimeCompare cred.usernameHash
        ((sha3S username).take verifier.usernameHashSize) = 1 →
      edVerify (verifier.resolvePublicKey user) cred.rawMsg cred.signature = true →
      -v.clockSkewTolerance ≤ now - (cred.timestamp : Int) * verifier.nsPerSecond →
      now - (cred.timestamp : Int) * verifier.nsPerSecond ≤
        v.credentialTTL + v.clockSkewTolerance →
      ops.checkNonce st cred.nonceHex = .ok false →
      ops.isRevoked st user.did = .error e →
      verifier.Verify sha3S edVerify v ops st now username token =
        (verifier.deny "internal_error" "revocation check failed", some e, st)) ∧
    (∀ (σ : Type) (sha3S : String → Bytes) (edVerify : Bytes → Bytes → Bytes → Bool)
      (v : verifier.VerifierCfg) (ops : store.StoreOps σ) (st : σ) (now : Int)
      (username : String) (token : List Char) (e : String),
      (verifier.Verify sha3S edVerify v ops st now username token).2.1 = some e →
      (verifier.Verify sha3S edVerify v ops st now username token).1.allowed = false) := by
  refine ⟨?_, ?_, ?_, ?_⟩
  · intro σ sha3S edVerify v ops st now username token cred e hparse hlookup
    simp only [verifier.Verify, hparse, hlookup]
  · intro σ sha3S edVerify v ops st now username token cred user e hparse hlookup hc hsig
      hge hle hnonce
    simp only [verifier.Verify, hparse, hlookup, hc, hsig, hnonce]
    simp only [ne_eq, not_true_eq_false, Bool.true_eq_false, if_false,
      if_neg (by omega : ¬ now - (cred.timestamp : Int) * verifier.nsPerSecond <
        -v.clockSkewTolerance),
      if_neg (by omega : ¬ now - (cred.timestamp : Int) * verifier.nsPerSecond >
        v.credentialTTL + v.clockSkewTolerance)]
  · intro σ sha3S edVerify v ops st now username token cred user e hparse hlookup hc hsig
      hge hle hnonce hrev
    simp only [verifier.Verify, hparse, hlookup, hc, hsig, hnonce, hrev]
    simp only [ne_eq, not_true_eq_false, Bool.true_eq_false, if_false,
      if_neg (by omega : ¬ now - (cred.timestamp : Int) * verifier.nsPerSecond <
        -v.clockSkewTolerance),
      if_neg (by omega : ¬ now - (cred.timestamp : Int) * verifier.nsPerSecond >
        v.credentialTTL + v.clockSkewTolerance)]
  · intro σ sha3S edVerify v ops st now username token e h
    rcases hp : verifier.ParseCredential token with e0 | cred
    · simp only [verifier.Verify, hp] at h ⊢
      exact absurd h (by simp)
    · rcases hlk : ops.getUserByUsername st username with e1 | u
      · simp only [verifier.Verify, hp, hlk] at h ⊢
        rfl
      · rcases u with _ | user
        · simp only [verifier.Verify, hp, hlk] at h ⊢
          exact absurd h (by simp)
        · by_cases hcmp : verifier.constantTimeCompare cred.usernameHash
              ((sha3S username).take verifier.usernameHashSize) ≠ 1
          · simp only [verifier.Verify, hp, hlk, if_pos hcmp] at h ⊢
            exact absurd h (by simp)
          · by_cases hsig : edVerify (verifier.resolvePublicKey user) cred.rawMsg
                cred.signature = false
            · simp only [verifier.Verify, hp, hlk, if_neg hcmp, if_pos hsig] at h ⊢
              exact absurd h (by simp)
            · by_cases hfut : now - (cred.timestamp : Int) * verifier.nsPerSecond <
                  -v.clockSkewTolerance
              · simp only [verifier.Verify, hp, hlk, if_neg hcmp, if_neg hsig,
                  if_pos hfut] at h ⊢
                exact absurd h (by simp)
              · by_cases hexp : now - (cred.timestamp : Int) * verifier.nsPerSecond >
                    v.credentialTTL + v.clockSkewTolerance
                · simp only [verifier.Verify, hp, hlk, if_neg hcmp, if_neg hsig,
                    if_neg hfut, if_pos hexp] at h ⊢
                  exact absurd h (by simp)
                · rcases hn7 : ops.checkNonce st cred.nonceHex with e2 | b7
                  · simp only [verifier.Verify, hp, hlk, if_neg hcmp, if_neg hsig,
                      if_neg hfut, if_neg hexp, hn7] at h ⊢
                    rfl
                  · rcases b7 with _ | _
                    · rcases hr8 : ops.isRevoked st user.did with e3 | b8
                      · simp only [verifier.Verify, hp, hlk, if_neg hcmp, if_neg hsig,
                          if_neg hfut, if_neg hexp, hn7, hr8] at h ⊢
                        rfl
                      · rcases b8 with _ | _
                        · simp only [verifier.Verify, hp, hlk, if_neg hcmp, if_neg hsig,
                            if_neg hfut, if_neg hexp, hn7, hr8] at h ⊢
                          exact absurd h (by simp)
                        · simp only [verifier.Verify, hp, hlk, if_neg hcmp, if_neg hsig,
                            if_neg hfut, if_neg hexp, hn7, hr8] at h ⊢
                          exact absurd h (by simp)
                    · simp only [verifier.Verify, hp, hlk, if_neg hcmp, if_neg hsig,
                        if_neg hfut, if_neg hexp, hn7] at h ⊢
                      exact absurd h (by simp)

/-- Witness for C5 at concrete inputs: erroring store backends at steps 2,
7 and 8 each produce an `internal_error` denial with the underlying error
propagated, and the returned error implies a non-allowed result. -/
theorem C5_internal_errors_witness :
    verifier.Verify fixtures.dummyHash fixtures.dummyVerifyTrue fixtures.defaultCfg
        fixtures.errLookupOps () 0 "a" (fixtures.tokenFor "a") =
      (verifier.deny "internal_error" "database lookup failed", some "lookup db error", ()) ∧
    verifier.Verify fixtures.dummyHash fixtures.dummyVerifyTrue fixtures.defaultCfg
        fixtures.errNonceOps fixtures.c1Store 0 "a" (fixtures.tokenFor "a") =
      (verifier.deny "internal_error" "nonce check failed", some "nonce db error",
        fixtures.c1Store) ∧
    verifier.Verify fixtures.dummyHash fixtures.dummyVerifyTrue fixtures.defaultCfg
        fixtures.errRevOps fixtures.c1Store 0 "a" (fixtures.tokenFor "a") =
      (verifier.deny "internal_error" "revocation check failed", some "revocation db error",
        fixtures.c1Store) ∧
    (verifier.Verify fixtures.dummyHash fixtures.dummyVerifyTrue fixtures.defaultCfg
        fixtures.errLookupOps () 0 "a" (fixtures.tokenFor "a")).1.allowed = false := by
  obtain ⟨hA, hB, hC, hD⟩ := C5_internal_errors
  refine ⟨?_, ?_, ?_, ?_⟩
  · exact hA _ fixtures.dummyHash fixtures.dummyVerifyTrue fixtures.defaultCfg
      fixtures.errLookupOps () 0 "a" (fixtures.tokenFor "a") (fixtures.credFor "a")
      "lookup db error" rfl rfl
  · exact hB _ fixtures.dummyHash fixtures.dummyVerifyTrue fixtures.defaultCfg
      fixtures.errNonceOps fixtures.c1Store 0 "a" (fixtures.tokenFor "a")
      (fixtures.credFor "a") (fixtures.testUser 1 "a") "nonce db error"
      rfl rfl (by decide) rfl (by decide) (by decide) rfl
  · exact hC _ fixtures.dummyHash fixtures.dummyVerifyTrue fixtures.defaultCfg
      fixtures.errRevOps fixtures.c1Store 0 "a" (fixtures.tokenFor "a")
      (fixtures.credFor "a") (fixtures.testUser 1 "a") "revocation db error"
      rfl rfl (by decide) rfl (by decide) (by decide) rfl rfl
  · exact hD _ fixtures.dummyHash fixtures.dummyVerifyTrue fixtures.defaultCfg
      fixtures.errLookupOps () 0 "a" (fixtures.tokenFor "a") "lookup db error" rfl

/-! ## C4 — Reply-Message content -/

/-- Counterexample to C4 as stated: on a concrete denied request (a
`username_mismatch` denial), the Reply-Message sent in the Access-Reject
is the verifier's whole `Reason` string — the machine token, `": "`, and
the human-readable internal detail — and is therefore not exactly the
machine reason token. -/
theorem C4_reply_message_counterexample :
    radius.HandleAuth fixtures.dummyHash fixtures.dummyVerifyTrue fixtures.defaultCfg
        store.memOps fixtures.c4Store 0 "b" (fixtures.passwordFor "a")
        (.ok { allow := true, denyReasons := [] }) =
      (.accessReject "username_mismatch: credential was not issued for this username",
       { eventType := "auth_failure", decision := "DENY",
         reason := "username_mismatch: credential was not issued for this username" },
       fixtures.c4Store) ∧
    "username_mismatch: credential was not issued for this username" ≠
      "username_mismatch" :=
  ⟨rfl, by decide⟩

/-- C4 (amended): for every request that the verifier denies without a
store error, the Access-Reject's Reply-Message is the verifier's `Reason`
string — the machine reason token followed by `": "` and the
human-readable detail — and the recorded event carries the same string;
the original claim said the Reply-Message is exactly the bare machine
token and never contains the detail. -/
theorem C4_reply_message_amended (σ : Type) (sha3S : String → Bytes)
    (edVerify : Bytes → Bytes → Bytes → Bool) (v : verifier.VerifierCfg)
    (ops : store.StoreOps σ) (st : σ) (now : Int) (username password : String)
    (policyRes : Except String radius.AuthzResult)
    (res : verifier.VerifyResult) (st' : σ)
    (hu : ¬ username = "") (hp : ¬ password = "")
    (hv : verifier.Verify sha3S edVerify v ops st now username password.toList =
      (res, none, st'))
    (hdeny : res.allowed = false) :
    radius.HandleAuth sha3S edVerify v ops st now username password policyRes =
      (.accessReject res.reason,
       { eventType := "auth_failure", decision := "DENY", reason := res.reason }, st') := by
  simp only [radius.HandleAuth, if_neg hu, if_neg hp, hv, if_pos hdeny]

/-- Witness for C4 (amended) at the concrete `username_mismatch` denial. -/
theorem C4_reply_message_amended_witness :
    radius.HandleAuth fixtures.dummyHash fixtures.dummyVerifyTrue fixtures.defaultCfg
        store.memOps fixtures.c4Store 0 "b" (fixtures.passwordFor "a")
        (.ok { allow := true, denyReasons := [] }) =
      (.accessReject
         (verifier.deny "username_mismatch"
           "credential was not issued for this username").reason,
       { eventType := "auth_failure", decision := "DENY",
         reason := (verifier.deny "username_mismatch"
           "credential was not issued for this username").reason },
       fixtures.c4Store) :=
  C4_reply_message_amended _ fixtures.dummyHash fixtures.dummyVerifyTrue fixtures.defaultCfg
    store.memOps fixtures.c4Store 0 "b" (fixtures.passwordFor "a")
    (.ok { allow := true, denyReasons := [] })
    (verifier.deny "username_mismatch" "credential was not issued for this username")
    fixtures.c4Store (by decide) (by decide) rfl rfl

/-! ## C6 — RevokeUser -/

/-- The first user found under a username keeps being found, with its
`revoked_at` set, after the `UPDATE users SET revoked_at … WHERE
username = ?` step. -/
theorem find?_map_revoke (username : String) (now : Int) :
    ∀ (l : List store.User) (user : store.User),
      l.find? (fun x => x.username == username) = some user →
      (l.map (fun x => if x.username == username then { x with revokedAt := some now }
        else x)).find? (fun x => x.username == username) =
        some { user with revokedAt := some now }
  | [], user => by simp
  | y :: l, user => by
    intro hfind
    rcases hy : (y.username == username) with _ | _
    · rw [List.find?_cons, hy] at hfind
      have ih := find?_map_revoke username now l user hfind
      simp only [List.map_cons, hy, Bool.false_eq_true, if_false]
      rw [List.find?_cons, hy]
      exact ih
    · rw [List.find?_cons, hy] at hfind
      injection hfind with hfind
      subst hfind
      simp only [List.map_cons, hy, if_true]
      rw [List.find?_cons]
      simp [hy]

/-- Counterexample to C6 as stated: user `"carol"` is already revoked in
the concrete store (her `revoked_at` is `some 5` and a revocation row
exists), yet `RevokeUser` succeeds — it updates `revoked_at` again and
appends a second revocation row — instead of failing. -/
theorem C6_revoke_user_counterexample :
    fixtures.c6Store.users =
      [{ id := 1, username := "carol", did := ['d', 'c'],
         publicKey := List.replicate 32 0, role := "basic", createdAt := 0,
         revokedAt := some 5 }] ∧
    fixtures.c6Store.revocations = [{ did := ['d', 'c'], reason := "r0", revokedAt := 5 }] ∧
    store.RevokeUser fixtures.c6Store "carol" "again" 10 =
      .ok { users := [{ id := 1, username := "carol", did := ['d', 'c'],
                        publicKey := List.replicate 32 0, role := "basic", createdAt := 0,
                        revokedAt := some 10 }],
            revocations := [{ did := ['d', 'c'], reason := "r0", revokedAt := 5 },
                            { did := ['d', 'c'], reason := "again", revokedAt := 10 }],
            nonces := [] } :=
  ⟨rfl, rfl, rfl⟩

/-- C6 (amended): `RevokeUser` atomically sets the user's `revoked_at` and
appends a revocation row, and fails (returning an error and no new state)
exactly when no user with that username exists; when the user exists —
including when already revoked — it succeeds: the user's `revoked_at`
becomes the current time, one revocation row for the user's identifier is
appended, nonces are untouched, and the user is subsequently reported
revoked.  (The already-revoked rejection of the original claim is enforced
by the CLI layer, not by the store.) -/
theorem C6_revoke_user_amended :
    (∀ (st : store.StoreState) (username reason : String) (now : Int),
      st.users.find? (fun x => x.username == username) = none →
      store.RevokeUser st username reason now = .error ("user not found: " ++ username)) ∧
    (∀ (st : store.StoreState) (username reason : String) (now : Int)
      (user : store.User) (st' : store.StoreState),
      st.users.find? (fun x => x.username == username) = some user →
      store.RevokeUser st username reason now = .ok st' →
      st'.users.find? (fun x => x.username == username) =
        some { user with revokedAt := some now } ∧
      st'.revocations = st.revocations ++ [store.Revocation.mk user.did reason now] ∧
      st'.nonces = st.nonces ∧
      store.memOps.isRevoked st' user.did = .ok true) := by
  constructor
  · intro st username reason now hfind
    simp only [store.RevokeUser, hfind]
  · intro st username reason now user st' hfind hrev
    simp only [store.RevokeUser, hfind, Except.ok.injEq] at hrev
    subst hrev
    refine ⟨find?_map_revoke username now st.users user hfind, rfl, rfl, ?_⟩
    simp [store.memOps, List.any_append]

/-- Witness for C6 (amended) at concrete inputs: revoking a user in the
empty store fails with `user not found`, and revoking the already-revoked
`"carol"` succeeds with the expected state. -/
theorem C6_revoke_user_amended_witness :
    store.RevokeUser { users := [], revocations := [], nonces := [] } "x" "r" 0 =
      .error ("user not found: " ++ "x") ∧
    ((store.RevokeUser fixtures.c6Store "carol" "again" 10).toOption.getD
        { users := [], revocations := [], nonces := [] }).users.find?
        (fun x => x.username == "carol") =
      some { id := 1, username := "carol", did := ['d', 'c'],
             publicKey := List.replicate 32 0, role := "basic", createdAt := 0,
             revokedAt := some 10 } ∧
    store.memOps.isRevoked
        ((store.RevokeUser fixtures.c6Store "carol" "again" 10).toOption.getD
          { users := [], revocations := [], nonces := [] })
        (fixtures.testUser 1 "carol").did = .ok true := by
  obtain ⟨hA, hB⟩ := C6_revoke_user_amended
  obtain ⟨h1, _h2, _h3, h4⟩ := hB fixtures.c6Store "carol" "again" 10
    { fixtures.testUser 1 "carol" with revokedAt := some 5 }
    ((store.RevokeUser fixtures.c6Store "carol" "again" 10).toOption.getD
      { users := [], revocations := [], nonces := [] }) rfl rfl
  exact ⟨hA { users := [], revocations := [], nonces := [] } "x" "r" 0 rfl, h1, h4⟩

/-! ## Merkle-tree lemmas -/

namespace merkle

/-- One level step halves the node count, rounding up. -/
theorem levelUp_length (h : Bytes → Bytes) (l : List Bytes) :
    (levelUp h l).length = (l.length + 1) / 2 := (levelUpP h l).2

/-- The level step on two or more nodes hashes the first pair. -/
theorem levelUp_cons₂ (h : Bytes → Bytes) (a b : Bytes) (rest : List Bytes) :
    levelUp h (a :: b :: rest) = hashNode h a b :: levelUp h rest := rfl

/-- The parent at position `j` is the hash of children `2j, 2j+1`, or the
promoted child `2j` when it has no sibling. -/
theorem levelUp_getD (h : Bytes → Bytes) :
    ∀ (l : List Bytes) (j : Nat), 2 * j < l.length →
      (levelUp h l).getD j [] =
        if 2 * j + 1 < l.length then
          hashNode h (l.getD (2 * j) []) (l.getD (2 * j + 1) [])
        else l.getD (2 * j) []
  | [], j, hj => by simp at hj
  | [a], j, hj => by
    have hj0 : j = 0 := by simpa using Nat.lt_one_iff.mp (by simpa using hj)
    subst hj0
    simp [levelUp, levelUpP]
  | a :: b :: rest, 0, hj => by
    simp [levelUp_cons₂]
  | a :: b :: rest, j + 1, hj => by
    have hj' : 2 * j < rest.length := by
      simp only [List.length_cons] at hj
      omega
    have ih := levelUp_getD h rest j hj'
    rw [levelUp_cons₂]
    have e1 : 2 * (j + 1) = (2 * j + 1) + 1 := by omega
    have e2 : 2 * (j + 1) + 1 = (2 * j + 1 + 1) + 1 := by ring
    simp only [List.getD_cons_succ, e1, e2, List.length_cons]
    rw [ih]
    by_cases hc : 2 * j + 1 < rest.length
    · rw [if_pos hc, if_pos (by omega)]
    · rw [if_neg hc, if_neg (by omega)]

/-- The verification walk distributes over proof concatenation. -/
theorem foldProof_append (h : Bytes → Bytes) (c : Bytes) (p q : List ProofElement) :
    foldProof h c (p ++ q) = foldProof h (foldProof h c p) q := by
  simp [foldProof, List.foldl_append]

/-- Walking the collected sibling path from any node recomputes the root. -/
theorem foldProof_proofAux (h : Bytes → Bytes) (level : List Bytes) (idx : Nat)
    (hidx : idx < level.length) :
    foldProof h (level.getD idx []) (proofAux h level idx) = buildRootAux h level := by
  by_cases hl : level.length ≤ 1
  · have h1 : level.length = 1 := by omega
    rcases level with _ | ⟨a, t⟩
    · simp at h1
    · have ht : t = [] := by
        simp only [List.length_cons] at h1
        exact List.eq_nil_of_length_eq_zero (by omega)
      subst ht
      have hidx0 : idx = 0 := by
        simp only [List.length_cons, List.length_nil] at hidx
        omega
      subst hidx0
      simp [proofAux, buildRootAux, foldProof]
  · have hrec : idx / 2 < (levelUp h level).length := by
      rw [levelUp_length]
      omega
    have ih := foldProof_proofAux h (levelUp h level) (idx / 2) hrec
    rw [proofAux, dif_neg hl, buildRootAux, dif_neg hl]
    rw [foldProof_append, ← ih]
    congr 1
    rcases Nat.even_or_odd idx with ⟨k, hk⟩ | ⟨k, hk⟩
    · subst hk
      have hdiv : k + k = 2 * k := by omega
      rw [hdiv] at hidx ⊢
      have hm : 2 * k % 2 = 0 := by omega
      have hd : 2 * k / 2 = k := by omega
      rw [if_pos hm, hd, levelUp_getD h level k hidx]
      by_cases hc : 2 * k + 1 < level.length
      · rw [if_pos hc, if_pos hc]
        simp [foldProof]
      · rw [if_neg hc, if_neg hc]
        simp [foldProof]
    · subst hk
      have hm : ¬ (2 * k + 1) % 2 = 0 := by omega
      have hd : (2 * k + 1) / 2 = k := by omega
      have hk2 : 2 * k < level.length := by omega
      rw [if_neg hm, hd, levelUp_getD h level k hk2]
      rw [if_pos (by omega : 2 * k + 1 < level.length)]
      have he : 2 * k + 1 - 1 = 2 * k := by omega
      simp [foldProof, he]
termination_by level.length
decreasing_by
  have h2 := (levelUpP h level).2
  simp only [levelUp, h2]
  omega

/-- For an injective hash, the verification walk is injective in its
starting node. -/
theorem foldProof_inj (h : Bytes → Bytes) (hinj : Function.Injective h) :
    ∀ (proof : List ProofElement) (c c' : Bytes),
      foldProof h c proof = foldProof h c' proof → c = c'
  | [], _, _, he => he
  | p :: ps, c, c', he => by
    have hstep : (if p.isRight then hashNode h c p.hash else hashNode h p.hash c) =
        (if p.isRight then hashNode h c' p.hash else hashNode h p.hash c') := by
      apply foldProof_inj h hinj ps
      simpa [foldProof] using he
    rcases hr : p.isRight with _ | _
    · rw [hr] at hstep
      simp only [Bool.false_eq_true, if_false, hashNode] at hstep
      have h2 := hinj hstep
      simp only [List.cons.injEq, true_and] at h2
      exact List.append_cancel_left h2
    · rw [hr] at hstep
      simp only [if_true, hashNode] at hstep
      have h2 := hinj hstep
      simp only [List.cons.injEq, true_and] at h2
      exact List.append_cancel_right h2

/-- Leaf-hashing a list commutes with indexing. -/
theorem getD_map_hashLeaf (h : Bytes → Bytes) :
    ∀ (l : List Bytes) (i : Nat), i < l.length →
      (l.map (hashLeaf h)).getD i [] = hashLeaf h (l.getD i [])
  | a :: _, 0, _ => rfl
  | a :: t, i + 1, hi =>
    getD_map_hashLeaf h t i (by simpa using Nat.lt_of_succ_lt_succ (by simpa using hi))
  | [], i, hi => by simp at hi

end merkle

/-! ## C9 — Merkle tree correctness -/

/-- C9: building a tree from a non-empty leaf list is deterministic (any
rebuild has the same root), every in-range leaf index yields a proof that
verifies against the root with that leaf's bytes, and — for an injective
hash, the collision-freeness SHA3-256 is relied on for — the same proof
fails for any other byte string. -/
theorem C9_merkle_tree (h : Bytes → Bytes) (leaves : List Bytes) (t : merkle.MTree)
    (i : Nat) (hT : merkle.NewTree h leaves = .ok t) (hi : i < leaves.length)
    (hinj : Function.Injective h) :
    (∀ t2 : merkle.MTree, merkle.NewTree h leaves = .ok t2 → t2.root = t.root) ∧
    merkle.TreeProof h t i = .ok (merkle.proofAux h (leaves.map (merkle.hashLeaf h)) i) ∧
    merkle.VerifyProof h (leaves.getD i [])
      (merkle.proofAux h (leaves.map (merkle.hashLeaf h)) i) t.root = true ∧
    (∀ d : Bytes, d ≠ leaves.getD i [] →
      merkle.VerifyProof h d
        (merkle.proofAux h (leaves.map (merkle.hashLeaf h)) i) t.root = false) := by
  have hne : leaves.isEmpty = false := by
    rcases hleaves : leaves.isEmpty with _ | _
    · rfl
    · rw [merkle.NewTree, hleaves] at hT
      simp at hT
  have ht : t = ⟨leaves, merkle.buildRootAux h (leaves.map (merkle.hashLeaf h))⟩ := by
    rw [merkle.NewTree, hne] at hT
    simp only [Bool.false_eq_true, if_false, Except.ok.injEq] at hT
    exact hT.symm
  subst ht
  have hmaplen : i < (leaves.map (merkle.hashLeaf h)).length := by simpa using hi
  have hfold := merkle.foldProof_proofAux h (leaves.map (merkle.hashLeaf h)) i hmaplen
  rw [merkle.getD_map_hashLeaf h leaves i hi] at hfold
  refine ⟨?_, ?_, ?_, ?_⟩
  · intro t2 h2
    rw [hT] at h2
    injection h2 with h2
    rw [← h2]
  · rw [merkle.TreeProof, if_pos (by simpa using hi)]
  · rw [merkle.VerifyProof, hfold]
    simp
  · intro d hd
    rw [merkle.VerifyProof]
    refine beq_eq_false_iff_ne.mpr ?_
    intro heq
    apply hd
    have hleaf : merkle.hashLeaf h d = merkle.hashLeaf h (leaves.getD i []) :=
      merkle.foldProof_inj h hinj _ _ _ (heq.trans hfold.symm)
    have h0 := hinj hleaf
    simpa using h0

/-- Witness for C9 at a concrete input: the identity hash (injective) on
the three-leaf list `[[0], [1], [2]]`, index 2 (the promoted odd leaf),
and the distinct byte string `[5]`. -/
theorem C9_merkle_tree_witness :
    merkle.TreeProof id
        ⟨[[0], [1], [2]],
         merkle.buildRootAux id ([[0], [1], [2]].map (merkle.hashLeaf id))⟩ 2 =
      .ok (merkle.proofAux id ([[0], [1], [2]].map (merkle.hashLeaf id)) 2) ∧
    merkle.VerifyProof id [2]
      (merkle.proofAux id ([[0], [1], [2]].map (merkle.hashLeaf id)) 2)
      (merkle.buildRootAux id ([[0], [1], [2]].map (merkle.hashLeaf id))) = true ∧
    merkle.VerifyProof id [5]
      (merkle.proofAux id ([[0], [1], [2]].map (merkle.hashLeaf id)) 2)
      (merkle.buildRootAux id ([[0], [1], [2]].map (merkle.hashLeaf id))) = false := by
  obtain ⟨_, hproof, hok, hfail⟩ := C9_merkle_tree id [[0], [1], [2]]
    ⟨[[0], [1], [2]], merkle.buildRootAux id ([[0], [1], [2]].map (merkle.hashLeaf id))⟩
    2 (by simp [merkle.NewTree]) (by decide) Function.injective_id
  exact ⟨hproof, hok, hfail [5] (by decide)⟩

/-! ## C10 — empty proofs and single-leaf trees -/

/-- C10: `VerifyProof` with an empty proof sequence returns `true` exactly
when the claimed root equals `SHA3-256(0x00 ‖ leafData)`; for a tree built
from a single leaf, `Proof 0` is the empty sequence and verifies that leaf
against the root, whose value is the leaf hash itself. -/
theorem C10_empty_proof (h : Bytes → Bytes) (leafData root l : Bytes) :
    (merkle.VerifyProof h leafData [] root = true ↔ root = h (0 :: leafData)) ∧
    (∀ t : merkle.MTree, merkle.NewTree h [l] = .ok t →
      t.root = merkle.hashLeaf h l ∧
      merkle.TreeProof h t 0 = .ok [] ∧
      merkle.VerifyProof h l [] t.root = true) := by
  constructor
  · rw [merkle.VerifyProof]
    simp only [merkle.foldProof, List.foldl_nil, merkle.hashLeaf, beq_iff_eq]
    exact eq_comm
  · intro t hT
    have ht : t = ⟨[l], merkle.buildRootAux h ([l].map (merkle.hashLeaf h))⟩ := by
      rw [merkle.NewTree] at hT
      simp only [List.isEmpty_cons, Bool.false_eq_true, if_false, Except.ok.injEq] at hT
      exact hT.symm
    subst ht
    have hroot : merkle.buildRootAux h ([l].map (merkle.hashLeaf h)) =
        merkle.hashLeaf h l := by
      rw [merkle.buildRootAux]
      simp
    refine ⟨hroot, ?_, ?_⟩
    · rw [merkle.TreeProof, if_pos (by simp)]
      rw [merkle.proofAux, dif_pos (by simp)]
    · rw [hroot, merkle.VerifyProof]
      simp [merkle.foldProof]

/-- Witness for C10 at a concrete input: the identity hash and the single
leaf `[7]`. -/
theorem C10_empty_proof_witness :
    (merkle.VerifyProof id [7] [] (merkle.hashLeaf id [7]) = true ↔
      merkle.hashLeaf id [7] = id (0 :: [7])) ∧
    (merkle.NewTree id [[7]] = .ok
      ⟨[[7]], merkle.buildRootAux id ([[7]].map (merkle.hashLeaf id))⟩ ∧
     merkle.TreeProof id
        ⟨[[7]], merkle.buildRootAux id ([[7]].map (merkle.hashLeaf id))⟩ 0 = .ok [] ∧
     merkle.VerifyProof id [7] []
        (⟨[[7]], merkle.buildRootAux id ([[7]].map (merkle.hashLeaf id))⟩ :
          merkle.MTree).root = true) := by
  obtain ⟨hiff, hsingle⟩ := C10_empty_proof id [7] (merkle.hashLeaf id [7]) [7]
  obtain ⟨_, hproof, hverify⟩ := hsingle
    ⟨[[7]], merkle.buildRootAux id ([[7]].map (merkle.hashLeaf id))⟩
    (by simp [merkle.NewTree])
  exact ⟨hiff, by simp [merkle.NewTree], hproof, hverify⟩

end SoHoLINK
